import Mathlib

/-!
# Whiteboard vector-scene engine: shallow embedding

This file embeds the interactive whiteboard engine of the repository
(`src/unnamed/part_000`, with the coordinate mapper also present in
`src/Whiteboard.tsx`) as executable Lean definitions and proves the
specification's claims about it.

Conventions of the embedding:
* JavaScript floating-point numbers are modelled as exact rationals (`ℚ`).
* `Math.sqrt`-based distance comparisons are carried in squared form, which is
  equivalent over nonnegative radicands and positive thresholds; adequacy
  lemmas against `Real.sqrt` are proved below (`sqrt_lt_iff_sq_lt`,
  `sqrt_le_sqrt_add_iff`).
* A shape's optional `rotation` (radians, falsy when `0`/absent) is modelled as
  `Option Rot` where `Rot` carries the exact pair `(cos θ, sin θ)`; the source
  only ever consumes the angle through `Math.cos`/`Math.sin`.
* `Math.random()`-generated ids and the transcendental results of
  `Math.atan2`/`Math.pow` are supplied as explicit inputs (oracles) to the
  corresponding operations.
* React `useState` state is collected into one `EngineState` record; each event
  handler becomes a state-transition function.  Render-only state (grid
  pattern, colors panel, sidebar) is omitted: no claim mentions it.
-/

/-- `{x, y}` world- or screen-space point (source `interface Point`). -/
@[ext]
structure Point where
  x : ℚ
  y : ℚ
  deriving DecidableEq, Repr

/-- `Math.min` on exact rationals, written with `if` so that it evaluates by
kernel reduction (Mathlib's lattice `min` does not). -/
def qmin (a b : ℚ) : ℚ := if a ≤ b then a else b

/-- `Math.max` on exact rationals, written with `if` so that it evaluates by
kernel reduction. -/
def qmax (a b : ℚ) : ℚ := if a ≤ b then b else a

theorem qmin_eq_min (a b : ℚ) : qmin a b = min a b := by
  simp [qmin, min_def]

theorem qmax_eq_max (a b : ℚ) : qmax a b = max a b := by
  simp [qmax, max_def]

/-- Source `type Tool` (part_000 line 24). -/
inductive Tool where
  | move | pencil | eraser | rect | roundRect | circle | line | arrow | dashedLine | text | hand
  deriving DecidableEq, Repr

/-- Source `type ResizeHandle` (part_000 line 26). -/
inductive ResizeHandle where
  | nw | n | ne | e | se | s | sw | w
  deriving DecidableEq, Repr

/-- Exact stand-in for a rotation angle θ: the pair `(cos θ, sin θ)`.
The source stores the angle itself but only ever reads it through
`Math.cos`/`Math.sin` (hit tests, handle positions, render transform). -/
structure Rot where
  c : ℚ
  s : ℚ
  deriving DecidableEq, Repr

/-- Source `interface Shape` (part_000 lines 33-43).  The optional `isLocked`
is modelled as a `Bool` defaulting to `false` (absent is falsy); the optional
`rotation` as `Option Rot` with `none` for absent/zero (both falsy in JS).
Ids are opaque tokens produced by `Math.random().toString(36).substr(2, 9)`;
they are modelled as `Nat` and supplied as explicit inputs where the source
generates them. -/
structure Shape where
  id : Nat
  tool : Tool
  points : List Point
  color : String
  size : ℚ
  isFilled : Bool
  isLocked : Bool := false
  rotation : Option Rot := none
  text : Option String := none
  deriving DecidableEq, Repr

def MAX_HISTORY : Nat := 50

def MIN_SCALE : ℚ := 0.05

def MAX_SCALE : ℚ := 20

/-- `toWorldCoords` (Whiteboard.tsx lines 109-112, identically part_000
lines 128-131). -/
def toWorldCoords (offset : Point) (scale : ℚ) (screenX screenY : ℚ) : Point :=
  { x := (screenX - offset.x) / scale
  , y := (screenY - offset.y) / scale }

/-- `toScreenCoords` (Whiteboard.tsx lines 114-117). -/
def toScreenCoords (offset : Point) (scale : ℚ) (worldX worldY : ℚ) : Point :=
  { x := worldX * scale + offset.x
  , y := worldY * scale + offset.y }

/-- The zoom branch of `handleWheel` (part_000 lines 196-215).  The zoom
factor `Math.pow(1.1, delta / 100)` is transcendental in the wheel delta and is
taken as the input `factor`.  Returns the new `(scale, offset)`. -/
def zoomAt (scale : ℚ) (offset : Point) (mouse : Point) (factor : ℚ) : ℚ × Point :=
  let newScale := qmin (qmax MIN_SCALE (scale * factor)) MAX_SCALE
  let worldX := (mouse.x - offset.x) / scale
  let worldY := (mouse.y - offset.y) / scale
  (newScale, { x := mouse.x - worldX * newScale, y := mouse.y - worldY * newScale })

/-- `applySnap` (part_000 lines 123-126).  `Math.round` rounds halves toward
`+∞`, exactly Mathlib's `round` (`round q = ⌊q + 1/2⌋`). -/
def applySnap (snapToGrid : Bool) (gridSpacing : ℚ) (val : ℚ) : ℚ :=
  if snapToGrid then ((round (val / gridSpacing) : ℤ) : ℚ) * gridSpacing else val

/-- `v` is an exact (integer) multiple of the grid spacing `g`. -/
def OnGrid (g v : ℚ) : Prop := ∃ k : ℤ, v = (k : ℚ) * g

/-- C3: For every zoom wheel gesture with pointer at `mouse`, prior scale
`scale` and factor `factor`, the new scale is `clamp(scale*factor, MIN_SCALE,
MAX_SCALE)`, the new offset is `mouse - world * newScale` for `world` the
world point under the pointer, and that world point maps back to `mouse`
afterwards; in particular at screen (400,300), scale 1, offset (0,0), factor
1.1 the new scale is 1.1 and (400,300) maps back to (400,300). -/
theorem zoom_anchors_pointer :
    (∀ (scale factor : ℚ) (offset mouse : Point),
      (zoomAt scale offset mouse factor).1 = min (max MIN_SCALE (scale * factor)) MAX_SCALE
      ∧ (zoomAt scale offset mouse factor).2.x
          = mouse.x - (toWorldCoords offset scale mouse.x mouse.y).x * (zoomAt scale offset mouse factor).1
      ∧ (zoomAt scale offset mouse factor).2.y
          = mouse.y - (toWorldCoords offset scale mouse.x mouse.y).y * (zoomAt scale offset mouse factor).1
      ∧ toScreenCoords (zoomAt scale offset mouse factor).2 (zoomAt scale offset mouse factor).1
          (toWorldCoords offset scale mouse.x mouse.y).x
          (toWorldCoords offset scale mouse.x mouse.y).y = mouse)
    ∧ (zoomAt 1 ⟨0, 0⟩ ⟨400, 300⟩ (11/10)).1 = 11/10
    ∧ toScreenCoords (zoomAt 1 ⟨0, 0⟩ ⟨400, 300⟩ (11/10)).2 (zoomAt 1 ⟨0, 0⟩ ⟨400, 300⟩ (11/10)).1
        400 300 = ⟨400, 300⟩ := by
  refine ⟨fun scale factor offset mouse => ⟨?_, rfl, rfl, ?_⟩, ?_, ?_⟩
  · simp [zoomAt, qmin_eq_min, qmax_eq_max]
  · simp only [zoomAt, toScreenCoords, toWorldCoords]
    ext <;> ring
  · norm_num [zoomAt, qmin, qmax, MIN_SCALE, MAX_SCALE]
  · norm_num [zoomAt, toScreenCoords, qmin, qmax, MIN_SCALE, MAX_SCALE]

/-- C4: for every point, every scale in `[MIN_SCALE, MAX_SCALE]` and every
offset, `toWorldCoords (toScreenCoords p) = p` (exact over ℚ). -/
theorem toWorld_toScreen_roundtrip (offset : Point) (scale : ℚ) (p : Point)
    (hlo : MIN_SCALE ≤ scale) (hhi : scale ≤ MAX_SCALE) :
    toWorldCoords offset scale (toScreenCoords offset scale p.x p.y).x
      (toScreenCoords offset scale p.x p.y).y = p := by
  have hs : scale ≠ 0 := by
    have : (0 : ℚ) < scale := lt_of_lt_of_le (by norm_num [MIN_SCALE]) hlo
    exact ne_of_gt this
  simp only [toWorldCoords, toScreenCoords]
  ext
  · field_simp
  · field_simp

/-- Witness for C4 at offset (7,9), scale 2, point (3,5). -/
theorem toWorld_toScreen_roundtrip_witness :
    MIN_SCALE ≤ (2 : ℚ) ∧ (2 : ℚ) ≤ MAX_SCALE
    ∧ toWorldCoords ⟨7, 9⟩ 2 (toScreenCoords ⟨7, 9⟩ 2 (3 : ℚ) (5 : ℚ)).x
        (toScreenCoords ⟨7, 9⟩ 2 (3 : ℚ) (5 : ℚ)).y = ⟨3, 5⟩ :=
  ⟨by norm_num [MIN_SCALE], by norm_num [MAX_SCALE],
    toWorld_toScreen_roundtrip ⟨7, 9⟩ 2 ⟨3, 5⟩ (by norm_num [MIN_SCALE]) (by norm_num [MAX_SCALE])⟩

/-! ## Hit testing (part_000 lines 296-412)

All `Math.sqrt`-based distance comparisons are carried in squared form; the
lemmas `sqrt_lt_iff_sq_lt` and `sqrt_le_sqrt_add_iff` prove the squared forms
equivalent to the source's `Real.sqrt` comparisons (the thresholds `10/scale`,
`12/scale` are positive for every positive scale). -/

/-- Squared Euclidean distance: the source compares
`Math.sqrt(Math.pow(ax-bx,2) + Math.pow(ay-by,2))` against thresholds. -/
def distSq (a b : Point) : ℚ := (a.x - b.x) ^ 2 + (a.y - b.y) ^ 2

/-- Rotate `p` about `center` by the angle whose cosine and sine are `(c, s)`:
the source pattern `x' = cx + (dx*cos - dy*sin); y' = cy + (dx*sin + dy*cos)`. -/
def rotateAbout (center : Point) (c s : ℚ) (p : Point) : Point :=
  { x := center.x + ((p.x - center.x) * c - (p.y - center.y) * s)
  , y := center.y + ((p.x - center.x) * s + (p.y - center.y) * c) }

/-- Adequacy of the squared form for `Math.sqrt d < h` with positive `h`. -/
theorem sqrt_lt_iff_sq_lt (d h : ℚ) (hh : 0 < h) :
    Real.sqrt (d : ℝ) < (h : ℝ) ↔ d < h ^ 2 := by
  rw [Real.sqrt_lt' (by exact_mod_cast hh)]
  exact_mod_cast Iff.rfl

/-- Adequacy of the sqrt-free circle test: `√d ≤ √r + h` with `0 ≤ d`,
`0 ≤ r`, `0 < h` is equivalent to `d ≤ r + h² ∨ (d - r - h²)² ≤ 4h²r`. -/
theorem sqrt_le_sqrt_add_iff (d r h : ℚ) (hd : 0 ≤ d) (hr : 0 ≤ r) (hh : 0 < h) :
    Real.sqrt (d : ℝ) ≤ Real.sqrt (r : ℝ) + (h : ℝ)
      ↔ (d ≤ r + h ^ 2 ∨ (d - r - h ^ 2) ^ 2 ≤ 4 * h ^ 2 * r) := by
  have hd' : (0:ℝ) ≤ (d:ℚ) := by exact_mod_cast hd
  have hr' : (0:ℝ) ≤ (r:ℚ) := by exact_mod_cast hr
  have hh' : (0:ℝ) < (h:ℚ) := by exact_mod_cast hh
  set s := Real.sqrt (r : ℝ) with hsdef
  set t := Real.sqrt (d : ℝ) with htdef
  have hs0 : 0 ≤ s := Real.sqrt_nonneg _
  have ht0 : 0 ≤ t := Real.sqrt_nonneg _
  have hs2 : s ^ 2 = (r : ℝ) := Real.sq_sqrt hr'
  have ht2 : t ^ 2 = (d : ℝ) := Real.sq_sqrt hd'
  constructor
  · intro hle
    have hsq : (d : ℝ) ≤ (s + (h:ℚ)) ^ 2 := by
      calc (d : ℝ) = t ^ 2 := ht2.symm
        _ ≤ (s + (h:ℚ)) ^ 2 := by
            apply pow_le_pow_left ht0 hle
    by_cases hc : d ≤ r + h ^ 2
    · exact Or.inl hc
    · refine Or.inr ?_
      have hc' : ((r : ℝ) + (h:ℚ) ^ 2) < (d : ℝ) := by
        push_cast
        exact_mod_cast lt_of_not_le hc
      have key : ((d : ℝ) - r - (h:ℚ) ^ 2) ^ 2 ≤ 4 * (h:ℚ) ^ 2 * (r : ℝ) := by
        nlinarith [hs2, hsq, hs0, hh'.le, mul_nonneg hh'.le hs0]
      exact_mod_cast key
  · intro hor
    have hgoal : (d : ℝ) ≤ (s + (h:ℚ)) ^ 2 := by
      rcases hor with hle | hsq
      · have : (d : ℝ) ≤ (r : ℝ) + ((h:ℚ):ℝ) ^ 2 := by exact_mod_cast hle
        nlinarith [mul_nonneg hs0 hh'.le]
      · have hsq' : ((d : ℝ) - r - (h:ℚ) ^ 2) ^ 2 ≤ 4 * ((h:ℚ):ℝ) ^ 2 * (r : ℝ) := by
          exact_mod_cast hsq
        nlinarith [hs2, hs0, hh', mul_nonneg hh'.le hs0, sq_nonneg ((d:ℝ) - r - (h:ℚ)^2 - 2*(h:ℚ)*s)]
    calc t = Real.sqrt (d : ℝ) := htdef
      _ ≤ Real.sqrt ((s + (h:ℚ)) ^ 2) := Real.sqrt_le_sqrt hgoal
      _ = s + (h:ℚ) := Real.sqrt_sq (by positivity)

/-- `checkHit` (part_000 lines 296-339).  `pts[1] || p1` is `getD` (a Point
object is always truthy).  The per-variant distance tests are the source's
sqrt comparisons in equivalent squared form (see the adequacy lemmas). -/
def checkHit (scale : ℚ) (pos : Point) (shape : Shape) : Bool :=
  let hitboxSize := 10 / scale
  let p1 := shape.points.headD ⟨0, 0⟩
  let p2 := (shape.points[1]?).getD p1
  let cx := (p1.x + p2.x) / 2
  let cy := (p1.y + p2.y) / 2
  -- inverse transform of the query point when the shape is rotated:
  -- cos(-θ) = r.c, sin(-θ) = -r.s
  let target : Point :=
    match shape.rotation with
    | some r => rotateAbout ⟨cx, cy⟩ r.c (-r.s) pos
    | none => pos
  if shape.tool == Tool.pencil || shape.tool == Tool.eraser then
    shape.points.any (fun p => decide (distSq p target < hitboxSize ^ 2))
  else if shape.tool == Tool.circle then
    -- source: `dist <= radius + hitboxSize`, dist = √(distSq target p1),
    -- radius = √(distSq p2 p1)
    let radiusSq := distSq p2 p1
    let dSq := distSq target p1
    decide (dSq ≤ radiusSq + hitboxSize ^ 2
      ∨ (dSq - radiusSq - hitboxSize ^ 2) ^ 2 ≤ 4 * hitboxSize ^ 2 * radiusSq)
  else
    let minX := qmin p1.x p2.x - hitboxSize
    let maxX := qmax p1.x p2.x + hitboxSize
    let minY := qmin p1.y p2.y - hitboxSize
    let maxY := qmax p1.y p2.y + hitboxSize
    if shape.tool == Tool.text then
      let fontSize := qmax 16 (shape.size * 5)
      decide (minX ≤ target.x ∧ target.x ≤ minX + 200
        ∧ minY - fontSize ≤ target.y ∧ target.y ≤ minY)
    else
      decide (minX ≤ target.x ∧ target.x ≤ maxX ∧ minY ≤ target.y ∧ target.y ≤ maxY)

/-- `checkRotationHandleHit` (part_000 lines 341-367); `false` when the shape
has fewer than two points.  Handle position is the top-center point rotated
*forward* by the shape's rotation (cos θ = r.c, sin θ = r.s). -/
def checkRotationHandleHit (scale : ℚ) (pos : Point) (shape : Shape) : Bool :=
  match shape.points with
  | p1 :: p2 :: _ =>
    let cx := (p1.x + p2.x) / 2
    let cy := (p1.y + p2.y) / 2
    let minY := qmin p1.y p2.y
    let rotHandleDist := 30 / scale
    let rotHandleSize := 12 / scale
    let base : Point := ⟨cx, minY - rotHandleDist⟩
    let handle : Point :=
      match shape.rotation with
      | some r => rotateAbout ⟨cx, cy⟩ r.c r.s base
      | none => base
    decide (distSq pos handle < rotHandleSize ^ 2)
  | _ => false

/-- JS object-property insertion order of `baseHandles` in
`checkResizeHandleHit` (part_000 lines 385-394). -/
def resizeHandleOrder : List ResizeHandle :=
  [.nw, .n, .ne, .e, .se, .s, .sw, .w]

/-- The unrotated handle anchor points of `baseHandles`. -/
def baseHandlePoint (minX maxX minY maxY midX midY : ℚ) : ResizeHandle → Point
  | .nw => ⟨minX, minY⟩
  | .n => ⟨midX, minY⟩
  | .ne => ⟨maxX, minY⟩
  | .e => ⟨maxX, midY⟩
  | .se => ⟨maxX, maxY⟩
  | .s => ⟨midX, maxY⟩
  | .sw => ⟨minX, maxY⟩
  | .w => ⟨minX, midY⟩

/-- `checkResizeHandleHit` (part_000 lines 369-412): first handle (in
insertion order) within `12/scale` of the query point; `none` when the shape
has fewer than two points. -/
def checkResizeHandleHit (scale : ℚ) (pos : Point) (shape : Shape) : Option ResizeHandle :=
  match shape.points with
  | p1 :: p2 :: _ =>
    let handleSize := 12 / scale
    let minX := qmin p1.x p2.x
    let maxX := qmax p1.x p2.x
    let minY := qmin p1.y p2.y
    let maxY := qmax p1.y p2.y
    let midX := (minX + maxX) / 2
    let midY := (minY + maxY) / 2
    resizeHandleOrder.find? (fun k =>
      let p := baseHandlePoint minX maxX minY maxY midX midY k
      let handle : Point :=
        match shape.rotation with
        | some r => rotateAbout ⟨midX, midY⟩ r.c r.s p
        | none => p
      decide (distSq pos handle < handleSize ^ 2))
  | _ => none

/-! ## C6: rotation factoring of the hit test -/

/-- The center actually used by `checkHit`: the midpoint of the first two
points (`cx = (p1.x + p2.x)/2` with `p2 = pts[1] || p1`). -/
def firstTwoMid (pts : List Point) : Point :=
  let p1 := pts.headD ⟨0, 0⟩
  let p2 := (pts[1]?).getD p1
  ⟨(p1.x + p2.x) / 2, (p1.y + p2.y) / 2⟩

/-- Modelled from the spec's words "the shape's bounding-box center": the
center of the axis-aligned bounding box of *all* the shape's points (this is
the center the render pipeline uses for the selection box, part_000
lines 529-537). -/
def bboxCenter (pts : List Point) : Point :=
  match pts with
  | [] => ⟨0, 0⟩
  | p :: rest =>
    let minX := rest.foldl (fun a q => qmin a q.x) p.x
    let maxX := rest.foldl (fun a q => qmax a q.x) p.x
    let minY := rest.foldl (fun a q => qmin a q.y) p.y
    let maxY := rest.foldl (fun a q => qmax a q.y) p.y
    ⟨(minX + maxX) / 2, (minY + maxY) / 2⟩

theorem qmin_add_qmax (a b : ℚ) : qmin a b + qmax a b = a + b := by
  simp only [qmin, qmax]
  split <;> ring

theorem firstTwoMid_eq_bboxCenter (pts : List Point) (h : pts.length ≤ 2) :
    firstTwoMid pts = bboxCenter pts := by
  match pts with
  | [] => norm_num [firstTwoMid, bboxCenter]
  | [p] =>
    simp only [firstTwoMid, bboxCenter, List.headD, List.getElem?_cons_succ,
      List.getElem?_nil, Option.getD_none, List.foldl]
  | [p, q] =>
    simp only [firstTwoMid, bboxCenter, List.headD, List.getElem?_cons_succ,
      List.getElem?_cons_zero, Option.getD_some, List.foldl]
    ext
    · show (p.x + q.x) / 2 = (qmin p.x q.x + qmax p.x q.x) / 2
      rw [qmin_add_qmax]
    · show (p.y + q.y) / 2 = (qmin p.y q.y + qmax p.y q.y) / 2
      rw [qmin_add_qmax]
  | p :: q :: r :: rest => simp at h

/-- C6 (amended): for every rotated shape, `checkHit` equals the unrotated
per-variant test applied to the query point inverse-rotated by `-rotation`
about the midpoint of the shape's *first two* points; for shapes with at most
two points (every two-point tool) that midpoint is the bounding-box center, so
there the claim holds as stated. -/
theorem checkHit_rotation_factors (scale : ℚ) (pos : Point) (shape : Shape) (r : Rot)
    (h : shape.rotation = some r) :
    checkHit scale pos shape
      = checkHit scale (rotateAbout (firstTwoMid shape.points) r.c (-r.s) pos)
          { shape with rotation := none }
    ∧ (shape.points.length ≤ 2 →
        checkHit scale pos shape
          = checkHit scale (rotateAbout (bboxCenter shape.points) r.c (-r.s) pos)
              { shape with rotation := none }) := by
  have main : checkHit scale pos shape
      = checkHit scale (rotateAbout (firstTwoMid shape.points) r.c (-r.s) pos)
          { shape with rotation := none } := by
    simp only [checkHit, firstTwoMid, h]
  exact ⟨main, fun hlen => by rw [main, firstTwoMid_eq_bboxCenter shape.points hlen]⟩

/-- A rotated 3-point freehand stroke on which `checkHit` and the spec's
bounding-box-center formulation disagree (the stroke's bounding-box center
(5,15) differs from the first-two-points midpoint (5,0) used by the code). -/
def c6Stroke : Shape :=
  { id := 1, tool := Tool.pencil
  , points := [⟨0, 0⟩, ⟨10, 0⟩, ⟨0, 30⟩]
  , color := "#6366f1", size := 5, isFilled := false
  , rotation := some ⟨0, 1⟩ }

/-- C6 counterexample: at scale 1 and query point (-25,-5), `checkHit` hits
the π/2-rotated stroke `c6Stroke`, but the unrotated test applied to the query
point inverse-rotated about the *bounding-box center* (the claim's wording)
misses it. -/
theorem checkHit_bbox_center_counterexample :
    checkHit 1 ⟨-25, -5⟩ c6Stroke = true
    ∧ checkHit 1 (rotateAbout (bboxCenter c6Stroke.points) (0 : ℚ) (-1) ⟨-25, -5⟩)
        { c6Stroke with rotation := none } = false := by
  constructor
  · norm_num [checkHit, c6Stroke, rotateAbout, distSq, List.any]
  · norm_num [checkHit, c6Stroke, rotateAbout, bboxCenter, distSq, qmin, qmax, List.any]

/-- Witness for the amended C6 at a rotated two-point rectangle. -/
theorem checkHit_rotation_factors_witness :
    (Shape.rotation
        { id := 2, tool := Tool.rect, points := [⟨0, 0⟩, ⟨100, 50⟩]
        , color := "c", size := 5, isFilled := false, rotation := some ⟨0, 1⟩ } = some ⟨0, 1⟩)
    ∧ (checkHit 1 ⟨0, 25⟩
          { id := 2, tool := Tool.rect, points := [⟨0, 0⟩, ⟨100, 50⟩]
          , color := "c", size := 5, isFilled := false, rotation := some ⟨0, 1⟩ }
        = checkHit 1
            (rotateAbout
              (firstTwoMid [⟨0, 0⟩, ⟨100, 50⟩]) (0 : ℚ) (-(1 : ℚ)) ⟨0, 25⟩)
            { id := 2, tool := Tool.rect, points := [⟨0, 0⟩, ⟨100, 50⟩]
            , color := "c", size := 5, isFilled := false, rotation := none }
      ∧ (([⟨0, 0⟩, ⟨100, 50⟩] : List Point).length ≤ 2 →
          checkHit 1 ⟨0, 25⟩
              { id := 2, tool := Tool.rect, points := [⟨0, 0⟩, ⟨100, 50⟩]
              , color := "c", size := 5, isFilled := false, rotation := some ⟨0, 1⟩ }
            = checkHit 1
                (rotateAbout
                  (bboxCenter [⟨0, 0⟩, ⟨100, 50⟩]) (0 : ℚ) (-(1 : ℚ)) ⟨0, 25⟩)
                { id := 2, tool := Tool.rect, points := [⟨0, 0⟩, ⟨100, 50⟩]
                , color := "c", size := 5, isFilled := false, rotation := none })) :=
  ⟨rfl, checkHit_rotation_factors 1 ⟨0, 25⟩ _ ⟨0, 1⟩ rfl⟩

/-! ## Engine state (part_000 lines 72-110) and event handlers

The `useState` variables of the component are collected into one record.
Render-only state (grid visibility/pattern/dot size, background color,
sidebar/panel flags) is omitted: it feeds only the render pipeline. -/

structure TextInput where
  visible : Bool
  x : ℚ
  y : ℚ
  value : String
  deriving DecidableEq, Repr

structure EngineState where
  shapes : List Shape
  tool : Tool
  previousTool : Tool
  color : String
  brushSize : ℚ
  isFilled : Bool
  snapToGrid : Bool
  gridSpacing : ℚ
  scale : ℚ
  offset : Point
  isPanning : Bool
  isSpacePressed : Bool
  isDrawing : Bool
  isDragging : Bool
  isResizing : Bool
  isRotating : Bool
  activeResizeHandle : Option ResizeHandle
  selectedShapeId : Option Nat
  hoveredShapeId : Option Nat
  startPos : Point
  currentPos : Point
  isShiftPressed : Bool
  clipboard : Option Shape
  undoStack : List (List Shape)
  redoStack : List (List Shape)
  textInput : TextInput
  deriving Repr

/-- `saveHistory` (part_000 lines 133-137): push the *current* `shapes` value
onto the undo stack — JS `[...prev.slice(-MAX_HISTORY + 1), shapes]`, keeping
at most the latest `MAX_HISTORY - 1` older entries — clear the redo stack and
replace the live sequence with `newShapes`.  The stack top is the list end. -/
def saveHistory (st : EngineState) (newShapes : List Shape) : EngineState :=
  { st with
    undoStack := st.undoStack.drop (st.undoStack.length - (MAX_HISTORY - 1)) ++ [st.shapes]
    redoStack := []
    shapes := newShapes }

/-- `undo` (part_000 lines 139-146): no-op on an empty undo stack; otherwise
move the current shapes to redo, pop the newest undo entry into the live
sequence, and clear the selection. -/
def undo (st : EngineState) : EngineState :=
  match st.undoStack.getLast? with
  | none => st
  | some prev =>
    { st with
      redoStack := st.redoStack ++ [st.shapes]
      undoStack := st.undoStack.dropLast
      shapes := prev
      selectedShapeId := none }

/-- `redo` (part_000 lines 148-154): mirror of `undo`, except the selection is
left untouched. -/
def redo (st : EngineState) : EngineState :=
  match st.redoStack.getLast? with
  | none => st
  | some next =>
    { st with
      undoStack := st.undoStack ++ [st.shapes]
      redoStack := st.redoStack.dropLast
      shapes := next }

/-- `handleCopy` (part_000 lines 156-162); `JSON.parse(JSON.stringify(...))`
is value copying in the functional model. -/
def handleCopy (st : EngineState) : EngineState :=
  match st.selectedShapeId with
  | some sid =>
    match st.shapes.find? (fun s => s.id == sid) with
    | some shape => { st with clipboard := some shape }
    | none => st
  | none => st

/-- `handlePaste` (part_000 lines 164-174): deep-copy the clipboard shape,
give it the fresh id, shift every point by (+20,+20), force `isLocked` off,
commit the appended sequence and select the new shape. -/
def handlePaste (st : EngineState) (freshId : Nat) : EngineState :=
  match st.clipboard with
  | some clip =>
    let pastedShape : Shape :=
      { clip with
        id := freshId
        points := clip.points.map (fun p => ⟨p.x + 20, p.y + 20⟩)
        isLocked := false }
    { saveHistory st (st.shapes ++ [pastedShape]) with selectedShapeId := some freshId }
  | none => st

/-- `handleDuplicate` (part_000 lines 176-189): same as paste but sourced from
the selected shape. -/
def handleDuplicate (st : EngineState) (freshId : Nat) : EngineState :=
  match st.selectedShapeId with
  | some sid =>
    match st.shapes.find? (fun s => s.id == sid) with
    | some shape =>
      let clonedShape : Shape :=
        { shape with
          id := freshId
          points := shape.points.map (fun p => ⟨p.x + 20, p.y + 20⟩)
          isLocked := false }
      { saveHistory st (st.shapes ++ [clonedShape]) with selectedShapeId := some freshId }
    | none => st
  | none => st

/-- `nudgeSelected` (part_000 lines 235-243): no-op when nothing is selected
or when the first shape carrying the selected id is locked (`shape?.isLocked`);
otherwise translate every point of every shape with that id by `(dx, dy)`. -/
def nudgeSelected (st : EngineState) (dx dy : ℚ) : EngineState :=
  match st.selectedShapeId with
  | none => st
  | some sid =>
    if ((st.shapes.find? (fun s => s.id == sid)).map Shape.isLocked).getD false then st
    else
      { st with shapes := st.shapes.map (fun s =>
          if s.id == sid then
            { s with points := s.points.map (fun p => ⟨p.x + dx, p.y + dy⟩) }
          else s) }

inductive ArrowDir where
  | up | down | left | right
  deriving DecidableEq, Repr

/-- The arrow-key branch of `handleKeyDown` (part_000 lines 246-247 and
272-278): ignored while the text input is open; with a selection, nudge by
`(e.shiftKey ? 10 : 1) / scale` along the arrow's axis. -/
def handleArrowKey (st : EngineState) (dir : ArrowDir) (shiftKey : Bool) : EngineState :=
  if st.textInput.visible then st
  else
    match st.selectedShapeId with
    | none => st
    | some _ =>
      let amount := (if shiftKey then (10 : ℚ) else 1) / st.scale
      match dir with
      | .up => nudgeSelected st 0 (-amount)
      | .down => nudgeSelected st 0 amount
      | .left => nudgeSelected st (-amount) 0
      | .right => nudgeSelected st amount 0

/-- The Delete/Backspace branch of `handleKeyDown` (part_000 lines 246-247 and
257-264): ignored while the text input is open or with no selection; a locked
selected shape returns early; otherwise commit the filtered sequence and clear
the selection. -/
def deleteKey (st : EngineState) : EngineState :=
  if st.textInput.visible then st
  else
    match st.selectedShapeId with
    | none => st
    | some sid =>
      if ((st.shapes.find? (fun s => s.id == sid)).map Shape.isLocked).getD false then st
      else
        { saveHistory st (st.shapes.filter (fun s => !(s.id == sid))) with
          selectedShapeId := none }

/-- `handleKeyUp` (part_000 lines 280-287): only the Shift and Space keys have
any effect; every other key (arrow releases included) falls through with the
state unchanged. -/
def handleKeyUp (st : EngineState) (key : String) : EngineState :=
  if st.textInput.visible then st
  else
    let st1 := if key == "Shift" then { st with isShiftPressed := false } else st
    if key == " " then
      let st2 := { st1 with isSpacePressed := false }
      if st2.tool == Tool.hand then { st2 with tool := st2.previousTool } else st2
    else st1

/-! ## Pointer handlers (part_000 lines 642-822)

The canvas' bounding rectangle is taken at the origin, so the client
coordinates of an event coincide with `rawPos`.  The fresh ids produced by
`Math.random()` at shape creation are explicit `freshId` arguments. -/

/-- `handleTextSubmit` (part_000 lines 807-822): with non-blank input, commit
a new text shape at the (snapped) world position of the input anchor; always
close and clear the input box (keeping its anchor coordinates). -/
def handleTextSubmit (st : EngineState) (freshId : Nat) : EngineState :=
  let st1 :=
    if st.textInput.value.trim ≠ "" then
      let worldPos := toWorldCoords st.offset st.scale st.textInput.x st.textInput.y
      saveHistory st (st.shapes ++
        [{ id := freshId
         , tool := Tool.text
         , points := [⟨applySnap st.snapToGrid st.gridSpacing worldPos.x,
                       applySnap st.snapToGrid st.gridSpacing worldPos.y⟩]
         , color := st.color
         , size := st.brushSize / st.scale
         , isFilled := false
         , text := some st.textInput.value }])
    else st
  { st1 with textInput := { st1.textInput with visible := false, value := "" } }

/-- `startDrawing` (part_000 lines 642-699).  `button` is the mouse button
(1 = auxiliary, 2 = secondary). -/
def startDrawing (st : EngineState) (client : Point) (button : Nat) (freshId : Nat) :
    EngineState :=
  let rawPos := client
  let pos := toWorldCoords st.offset st.scale rawPos.x rawPos.y
  let snappedPos : Point := ⟨applySnap st.snapToGrid st.gridSpacing pos.x,
                             applySnap st.snapToGrid st.gridSpacing pos.y⟩
  if st.isSpacePressed || button == 1 || button == 2 || st.tool == Tool.hand then
    { st with isPanning := true, startPos := client }
  else
    -- rotation/resize handle grab on the already-selected, unlocked shape
    let handleGrab : Option EngineState :=
      if st.tool == Tool.move then
        match st.selectedShapeId with
        | some sid =>
          match st.shapes.find? (fun s => s.id == sid) with
          | some selectedShape =>
            if !selectedShape.isLocked then
              if checkRotationHandleHit st.scale pos selectedShape then
                some { st with isRotating := true, startPos := pos }
              else
                match checkResizeHandleHit st.scale pos selectedShape with
                | some handle =>
                  some { st with
                          isResizing := true
                          activeResizeHandle := some handle
                          startPos := pos
                          currentPos := pos }
                | none => none
            else none
          | none => none
        | none => none
      else none
    match handleGrab with
    | some st' => st'
    | none =>
      let st1 := { st with startPos := snappedPos, currentPos := snappedPos }
      if st.tool == Tool.move then
        match st.shapes.reverse.find? (fun s => checkHit st.scale pos s) with
        | some hit =>
          if !hit.isLocked then
            { st1 with selectedShapeId := some hit.id, isDragging := true }
          else
            { st1 with selectedShapeId := some hit.id }
        | none => { st1 with selectedShapeId := none }
      else if st.tool == Tool.text then
        if st.textInput.visible then handleTextSubmit st1 freshId
        else { st1 with textInput := ⟨true, rawPos.x, rawPos.y, ""⟩ }
      else
        let st2 := { st1 with isDrawing := true, selectedShapeId := none }
        if st.tool == Tool.pencil || st.tool == Tool.eraser then
          { st2 with shapes := st2.shapes ++
              [{ id := freshId
               , tool := st.tool
               , points := [snappedPos]
               , color := st.color
               , size := st.brushSize / st.scale
               , isFilled := false }] }
        else st2

/-- The resizing update of `draw` (part_000 lines 745-767) on one shape:
shapes with a different id or fewer than two points are unchanged; otherwise
the handle decides which of the first two points moves by `(dx, dy)` —
`minXIdx`/`maxXIdx` pick the point with smaller/larger x, `minYIdx`/`maxYIdx`
likewise for y. -/
def resizeShape (sid : Nat) (handle : ResizeHandle) (dx dy : ℚ) (s : Shape) : Shape :=
  if s.id == sid then
    match s.points with
    | p1 :: p2 :: rest =>
      let minXIdx : Nat := if p1.x < p2.x then 0 else 1
      let maxXIdx : Nat := if p1.x < p2.x then 1 else 0
      let minYIdx : Nat := if p1.y < p2.y then 0 else 1
      let maxYIdx : Nat := if p1.y < p2.y then 1 else 0
      let upd : List Point → Nat → (Point → Point) → List Point := fun pts i f =>
        pts.modify f i
      let newPoints :=
        match handle with
        | .nw => upd (upd (p1 :: p2 :: rest) minXIdx (fun p => { p with x := p.x + dx }))
                     minYIdx (fun p => { p with y := p.y + dy })
        | .n => upd (p1 :: p2 :: rest) minYIdx (fun p => { p with y := p.y + dy })
        | .ne => upd (upd (p1 :: p2 :: rest) maxXIdx (fun p => { p with x := p.x + dx }))
                     minYIdx (fun p => { p with y := p.y + dy })
        | .e => upd (p1 :: p2 :: rest) maxXIdx (fun p => { p with x := p.x + dx })
        | .se => upd (upd (p1 :: p2 :: rest) maxXIdx (fun p => { p with x := p.x + dx }))
                     maxYIdx (fun p => { p with y := p.y + dy })
        | .s => upd (p1 :: p2 :: rest) maxYIdx (fun p => { p with y := p.y + dy })
        | .sw => upd (upd (p1 :: p2 :: rest) minXIdx (fun p => { p with x := p.x + dx }))
                     maxYIdx (fun p => { p with y := p.y + dy })
        | .w => upd (p1 :: p2 :: rest) minXIdx (fun p => { p with x := p.x + dx })
      { s with points := newPoints }
    | _ => s
  else s

/-- `draw` (part_000 lines 701-782).  `rotOracle` is the exact
`(cos θ, sin θ)` pair for `θ = Math.atan2(pos.y - cy, pos.x - cx) + π/2`,
supplied as an input because it is transcendental in the coordinates; it is
consumed only by the rotating branch. -/
def draw (st : EngineState) (client : Point) (rotOracle : Rot) : EngineState :=
  if st.isPanning then
    { st with
      offset := ⟨st.offset.x + (client.x - st.startPos.x),
                 st.offset.y + (client.y - st.startPos.y)⟩
      startPos := client }
  else
    let pos := toWorldCoords st.offset st.scale client.x client.y
    let snappedPos : Point := ⟨applySnap st.snapToGrid st.gridSpacing pos.x,
                               applySnap st.snapToGrid st.gridSpacing pos.y⟩
    let st0 :=
      if st.tool == Tool.move && !st.isDragging && !st.isResizing && !st.isRotating then
        { st with hoveredShapeId :=
            (st.shapes.reverse.find? (fun s => checkHit st.scale pos s)).map Shape.id }
      else st
    if st0.isDragging && st0.selectedShapeId.isSome then
      let sid := st0.selectedShapeId.getD 0
      let dx := snappedPos.x - st0.currentPos.x
      let dy := snappedPos.y - st0.currentPos.y
      { st0 with
        shapes := st0.shapes.map (fun s =>
          if s.id == sid then
            { s with points := s.points.map (fun p => ⟨p.x + dx, p.y + dy⟩) }
          else s)
        currentPos := snappedPos }
    else if st0.isRotating && st0.selectedShapeId.isSome then
      let sid := st0.selectedShapeId.getD 0
      { st0 with
        shapes := st0.shapes.map (fun s =>
          if s.id == sid then { s with rotation := some rotOracle } else s) }
    else if st0.isResizing && st0.selectedShapeId.isSome
        && st0.activeResizeHandle.isSome then
      let sid := st0.selectedShapeId.getD 0
      let handle := st0.activeResizeHandle.getD ResizeHandle.nw
      let dx := snappedPos.x - st0.currentPos.x
      let dy := snappedPos.y - st0.currentPos.y
      { st0 with
        shapes := st0.shapes.map (resizeShape sid handle dx dy)
        currentPos := snappedPos }
    else
      let st1 := { st0 with currentPos := snappedPos }
      if !st1.isDrawing then st1
      else if st1.tool == Tool.pencil || st1.tool == Tool.eraser then
        match st1.shapes.getLast? with
        | some last =>
          if last.tool == Tool.pencil || last.tool == Tool.eraser then
            { st1 with shapes := st1.shapes.dropLast ++
                [{ last with points := last.points ++ [snappedPos] }] }
          else st1
        | none => st1
      else st1

/-- `stopDrawing` (part_000 lines 784-805). `freshId` is the id that
`Math.random()` would mint for a two-point shape commit. -/
def stopDrawing (st : EngineState) (freshId : Nat) : EngineState :=
  if st.isPanning then { st with isPanning := false }
  else if st.isDragging || st.isResizing || st.isRotating then
    let st1 := { st with
                  isDragging := false
                  isResizing := false
                  isRotating := false
                  activeResizeHandle := none }
    saveHistory st1 st1.shapes
  else if !st.isDrawing then st
  else
    let st1 :=
      if !(st.tool == Tool.pencil || st.tool == Tool.eraser
            || st.tool == Tool.move || st.tool == Tool.hand) then
        let endUncon := st.currentPos
        let endP : Point :=
          if st.isShiftPressed
              && (st.tool == Tool.rect || st.tool == Tool.circle
                  || st.tool == Tool.roundRect) then
            let dx := st.currentPos.x - st.startPos.x
            let dy := st.currentPos.y - st.startPos.y
            let size := qmax (abs dx) (abs dy)
            ⟨st.startPos.x + (if 0 ≤ dx then size else -size),
             st.startPos.y + (if 0 ≤ dy then size else -size)⟩
          else endUncon
        saveHistory st (st.shapes ++
          [{ id := freshId
           , tool := st.tool
           , points := [st.startPos,
               ⟨applySnap st.snapToGrid st.gridSpacing endP.x,
                applySnap st.snapToGrid st.gridSpacing endP.y⟩]
           , color := st.color
           , size := st.brushSize / st.scale
           , isFilled := st.isFilled }])
      else saveHistory st st.shapes
    { st1 with isDrawing := false }

/-! ## Shared list helpers -/

theorem find?_map_of_pred (l : List Shape) (f : Shape → Shape) (p : Shape → Bool)
    (hp : ∀ s, p (f s) = p s) :
    (l.map f).find? p = (l.find? p).map f := by
  induction l with
  | nil => rfl
  | cons a l ih =>
    rw [List.map_cons]
    cases h : p a with
    | true =>
      rw [List.find?_cons_of_pos _ (by rw [hp]; exact h), List.find?_cons_of_pos _ h]
      rfl
    | false =>
      rw [List.find?_cons_of_neg _ (by rw [hp, h]; simp),
        List.find?_cons_of_neg _ (by rw [h]; simp)]
      exact ih

theorem eq_of_mem_of_nodup_ids {l : List Shape} (h : (l.map Shape.id).Nodup)
    {a b : Shape} (ha : a ∈ l) (hb : b ∈ l) (hid : a.id = b.id) : a = b :=
  List.inj_on_of_nodup_map h ha hb hid

theorem mem_map_of_fix {l : List Shape} {s : Shape} (hs : s ∈ l) (f : Shape → Shape)
    (hf : f s = s) : s ∈ l.map f :=
  hf ▸ List.mem_map_of_mem f hs

/-- If the first shape carrying id `sid` exists and is unlocked, a locked
member of a scene with unique ids cannot carry id `sid`. -/
theorem locked_ne_target {l : List Shape} {s tgt : Shape} {sid : Nat}
    (hnodup : (l.map Shape.id).Nodup) (hmem : s ∈ l) (hlock : s.isLocked = true)
    (hfind : l.find? (fun t => t.id == sid) = some tgt) (htgt : tgt.isLocked = false) :
    (s.id == sid) = false := by
  cases hs : (s.id == sid) with
  | false => rfl
  | true =>
    exfalso
    have htid := List.find?_some hfind
    simp only [beq_iff_eq] at htid hs
    have htmem : tgt ∈ l := List.mem_of_find?_eq_some hfind
    have : s = tgt := eq_of_mem_of_nodup_ids hnodup hmem htmem (by rw [hs, htid])
    rw [this, htgt] at hlock
    exact Bool.false_ne_true hlock

/-- Same conclusion from the source's `shape?.isLocked` guard evaluating
falsy (covering both the not-found and the found-unlocked cases). -/
theorem locked_ne_sid {l : List Shape} {s : Shape} {sid : Nat}
    (hnodup : (l.map Shape.id).Nodup) (hmem : s ∈ l) (hlock : s.isLocked = true)
    (hguard : ((l.find? (fun t => t.id == sid)).map Shape.isLocked).getD false = false) :
    (s.id == sid) = false := by
  cases hfind : l.find? (fun t => t.id == sid) with
  | none =>
    cases hs : (s.id == sid) with
    | false => rfl
    | true => exact absurd hs (by simpa using List.find?_eq_none.mp hfind s hmem)
  | some tgt =>
    rw [hfind] at hguard
    exact locked_ne_target hnodup hmem hlock hfind (by simpa using hguard)

/-- A concrete base state shared by the concrete evaluations below: empty
scene, pencil tool, scale 1, origin offset, snapping off, nothing selected,
empty history. -/
def baseState : EngineState :=
  { shapes := []
  , tool := Tool.pencil
  , previousTool := Tool.pencil
  , color := "#6366f1"
  , brushSize := 5
  , isFilled := false
  , snapToGrid := false
  , gridSpacing := 40
  , scale := 1
  , offset := ⟨0, 0⟩
  , isPanning := false
  , isSpacePressed := false
  , isDrawing := false
  , isDragging := false
  , isResizing := false
  , isRotating := false
  , activeResizeHandle := none
  , selectedShapeId := none
  , hoveredShapeId := none
  , startPos := ⟨0, 0⟩
  , currentPos := ⟨0, 0⟩
  , isShiftPressed := false
  , clipboard := none
  , undoStack := []
  , redoStack := []
  , textInput := ⟨false, 0, 0, ""⟩ }

/-! ## C10: undo/redo selection and frame effects -/

/-- C10 (amended): an undo that actually restores a snapshot (non-empty undo
stack) always clears the selection; `redo` never changes the selection — in
particular it does not restore the selection discarded by a preceding undo —
and neither operation touches the pan offset, the zoom scale, or the
clipboard.  (On an empty undo stack `undo` is a complete no-op, so the
selection survives; see the counterexample.) -/
theorem undo_clears_selection_redo_preserves (st : EngineState) :
    (st.undoStack ≠ [] → (undo st).selectedShapeId = none)
    ∧ (redo st).selectedShapeId = st.selectedShapeId
    ∧ (undo st).offset = st.offset ∧ (undo st).scale = st.scale
    ∧ (undo st).clipboard = st.clipboard
    ∧ (redo st).offset = st.offset ∧ (redo st).scale = st.scale
    ∧ (redo st).clipboard = st.clipboard := by
  have hu : ∀ prev, st.undoStack.getLast? = some prev →
      undo st = { st with
                  redoStack := st.redoStack ++ [st.shapes]
                  undoStack := st.undoStack.dropLast
                  shapes := prev
                  selectedShapeId := none } := by
    intro prev hp
    simp [undo, hp]
  refine ⟨?_, ?_, ?_, ?_, ?_, ?_, ?_, ?_⟩
  · intro hne
    obtain ⟨prev, hp⟩ := Option.isSome_iff_exists.mp (List.getLast?_isSome.mpr hne)
    rw [hu prev hp]
  all_goals
    first
    | (cases hp : st.undoStack.getLast? <;> simp [undo, hp])
    | (cases hp : st.redoStack.getLast? <;> simp [redo, hp])

/-- C10 counterexample: with an empty undo stack and shape 7 selected, `undo`
does *not* set the selected-shape id to null. -/
theorem undo_empty_stack_keeps_selection :
    (undo { baseState with selectedShapeId := some 7 }).selectedShapeId ≠ none := by
  simp [undo, baseState]

/-- Witness for the amended C10 at a state with a non-empty undo stack. -/
theorem undo_clears_selection_redo_preserves_witness :
    (({ baseState with undoStack := [[]], selectedShapeId := some 7 } : EngineState).undoStack ≠ [])
    ∧ (undo { baseState with undoStack := [[]], selectedShapeId := some 7 }).selectedShapeId
        = none :=
  ⟨by simp [baseState],
    (undo_clears_selection_redo_preserves
      { baseState with undoStack := [[]], selectedShapeId := some 7 }).1 (by simp [baseState])⟩

/-! ## C9: duplicate / paste -/

/-- C9: duplicating (or pasting) appends a copy carrying the freshly minted id
(distinct from the source's), points content-equal to the source's points each
shifted by (+20,+20), and `isLocked` forced to `false` even when the source
was locked; the pre-existing shapes — the source included — are unchanged. -/
theorem duplicate_paste_fresh_unlocked_shifted (st : EngineState)
    (sid : Nat) (src clip : Shape) (fidD fidP : Nat)
    (hsel : st.selectedShapeId = some sid)
    (hfind : st.shapes.find? (fun s => s.id == sid) = some src)
    (hclip : st.clipboard = some clip)
    (hD : fidD ≠ src.id) (hP : fidP ≠ clip.id) :
    (handleDuplicate st fidD).shapes
      = st.shapes ++ [{ src with
                        id := fidD
                        points := src.points.map (fun p => ⟨p.x + 20, p.y + 20⟩)
                        isLocked := false }]
    ∧ (handlePaste st fidP).shapes
      = st.shapes ++ [{ clip with
                        id := fidP
                        points := clip.points.map (fun p => ⟨p.x + 20, p.y + 20⟩)
                        isLocked := false }]
    ∧ fidD ≠ src.id ∧ fidP ≠ clip.id := by
  refine ⟨?_, ?_, hD, hP⟩
  · simp [handleDuplicate, hsel, hfind, saveHistory]
  · simp [handlePaste, hclip, saveHistory]

/-- A locked rectangle used by the concrete C9 state. -/
def c9Shape : Shape :=
  { id := 1, tool := Tool.rect, points := [⟨0, 0⟩, ⟨100, 50⟩]
  , color := "#f43f5e", size := 5, isFilled := false, isLocked := true }

/-- Concrete C9 state: the locked rectangle is selected and also sits on the
clipboard. -/
def c9State : EngineState :=
  { baseState with
    tool := Tool.move
    shapes := [c9Shape]
    selectedShapeId := some 1
    clipboard := some c9Shape }

/-- Witness for C9: duplicating with fresh id 2 and pasting with fresh id 3. -/
theorem duplicate_paste_fresh_unlocked_shifted_witness :
    (handleDuplicate c9State 2).shapes
      = c9State.shapes ++ [{ c9Shape with
                             id := 2
                             points := c9Shape.points.map (fun p => ⟨p.x + 20, p.y + 20⟩)
                             isLocked := false }]
    ∧ (handlePaste c9State 3).shapes
      = c9State.shapes ++ [{ c9Shape with
                             id := 3
                             points := c9Shape.points.map (fun p => ⟨p.x + 20, p.y + 20⟩)
                             isLocked := false }] := by
  refine ⟨(duplicate_paste_fresh_unlocked_shifted c9State 1 c9Shape c9Shape 2 3
    rfl ?_ rfl ?_ ?_).1, (duplicate_paste_fresh_unlocked_shifted c9State 1 c9Shape c9Shape 2 3
    rfl ?_ rfl ?_ ?_).2.1⟩ <;>
  simp [c9State, c9Shape, baseState, List.find?]

/-! ## C7: arrow-key nudges -/

/-- The per-axis translation applied by the four arrow branches of
`handleKeyDown` for a given nudge amount. -/
def nudgeVec (dir : ArrowDir) (amount : ℚ) : Point :=
  match dir with
  | .up => ⟨0, -amount⟩
  | .down => ⟨0, amount⟩
  | .left => ⟨-amount, 0⟩
  | .right => ⟨amount, 0⟩

theorem nudgeSelected_spec (st : EngineState) (sid : Nat) (s : Shape) (dx dy : ℚ)
    (hsel : st.selectedShapeId = some sid)
    (hfind : st.shapes.find? (fun t => t.id == sid) = some s)
    (hlock : s.isLocked = false) :
    (nudgeSelected st dx dy).shapes.find? (fun t => t.id == sid)
      = some { s with points := s.points.map (fun p => ⟨p.x + dx, p.y + dy⟩) }
    ∧ (nudgeSelected st dx dy).undoStack = st.undoStack
    ∧ (nudgeSelected st dx dy).redoStack = st.redoStack := by
  have hps : s.id = sid := by simpa using List.find?_some hfind
  have hform : nudgeSelected st dx dy
      = { st with shapes := st.shapes.map (fun t =>
          if t.id == sid then
            { t with points := t.points.map (fun p => ⟨p.x + dx, p.y + dy⟩) }
          else t) } := by
    unfold nudgeSelected
    rw [hsel]
    simp [hfind, hlock]
  rw [hform]
  refine ⟨?_, rfl, rfl⟩
  rw [find?_map_of_pred _ _ _ (fun t => by
    by_cases h : (t.id == sid) = true
    · simp [h]
    · simp [Bool.not_eq_true] at h
      simp [h])]
  rw [hfind]
  simp [hps, hlock]

/-- C7 (amended): with the text input closed and an unlocked shape selected,
every arrow-key press translates every point of that shape by exactly
`(shiftKey ? 10 : 1) / scale` world units along the arrow's axis — a constant
*screen-pixel* step of `1/scale` (or `10/scale`) world units, not a fixed
1 (or 10) world units — and a nudge gesture never produces a history commit:
the undo and redo stacks are unchanged by the key press, and an arrow-key
release leaves the entire state unchanged. -/
theorem nudge_moves_by_scaled_step_and_never_commits (st : EngineState)
    (dir : ArrowDir) (shiftKey : Bool) (sid : Nat) (s : Shape)
    (hvis : st.textInput.visible = false)
    (hsel : st.selectedShapeId = some sid)
    (hfind : st.shapes.find? (fun t => t.id == sid) = some s)
    (hlock : s.isLocked = false) :
    ((handleArrowKey st dir shiftKey).shapes.find? (fun t => t.id == sid)
        = some { s with points := s.points.map (fun p =>
            ⟨p.x + (nudgeVec dir ((if shiftKey then (10 : ℚ) else 1) / st.scale)).x,
             p.y + (nudgeVec dir ((if shiftKey then (10 : ℚ) else 1) / st.scale)).y⟩) })
    ∧ (handleArrowKey st dir shiftKey).undoStack = st.undoStack
    ∧ (handleArrowKey st dir shiftKey).redoStack = st.redoStack
    ∧ (∀ key, key ∈ ["ArrowUp", "ArrowDown", "ArrowLeft", "ArrowRight"] →
        handleKeyUp st key = st) := by
  have hup : ∀ key, key ∈ ["ArrowUp", "ArrowDown", "ArrowLeft", "ArrowRight"] →
      handleKeyUp st key = st := by
    intro key hk
    fin_cases hk <;> simp [handleKeyUp, hvis]
  have harrow : handleArrowKey st dir shiftKey
      = nudgeSelected st (nudgeVec dir ((if shiftKey then (10 : ℚ) else 1) / st.scale)).x
          (nudgeVec dir ((if shiftKey then (10 : ℚ) else 1) / st.scale)).y := by
    cases dir <;> simp [handleArrowKey, hvis, hsel, nudgeVec]
  obtain ⟨h1, h2, h3⟩ := nudgeSelected_spec st sid s
    (nudgeVec dir ((if shiftKey then (10 : ℚ) else 1) / st.scale)).x
    (nudgeVec dir ((if shiftKey then (10 : ℚ) else 1) / st.scale)).y hsel hfind hlock
  rw [harrow]
  exact ⟨h1, h2, h3, hup⟩

/-- The unlocked single-point shape of the concrete C7 state. -/
def c7Shape : Shape :=
  { id := 1, tool := Tool.pencil, points := [⟨0, 0⟩]
  , color := "#6366f1", size := 5, isFilled := false }

/-- Concrete C7 state: zoom scale 2, shape 1 selected, text input closed. -/
def c7State : EngineState :=
  { baseState with
    tool := Tool.move
    scale := 2
    shapes := [c7Shape]
    selectedShapeId := some 1 }

/-- C7 counterexample: at zoom scale 2 a plain ArrowRight press moves the
selected shape's point by 1/2 world unit, not the 1 world unit the claim
states, and neither the press nor the release pushes a history entry. -/
theorem nudge_amount_counterexample :
    ((handleArrowKey c7State ArrowDir.right false).shapes.map Shape.points) = [[⟨1/2, 0⟩]]
    ∧ (([[⟨1/2, 0⟩]] : List (List Point)) ≠ [[⟨1, 0⟩]])
    ∧ (handleArrowKey c7State ArrowDir.right false).undoStack = []
    ∧ (handleKeyUp (handleArrowKey c7State ArrowDir.right false) "ArrowRight").undoStack
        = [] := by
  have h1 : ("ArrowRight" == "Shift") = false := by decide
  have h2 : ("ArrowRight" == " ") = false := by decide
  refine ⟨?_, by norm_num, ?_, ?_⟩ <;>
    norm_num [handleArrowKey, handleKeyUp, nudgeSelected, c7State, c7Shape, baseState,
      h1, h2, List.find?]

/-- Witness for the amended C7 at the concrete scale-2 state. -/
theorem nudge_moves_by_scaled_step_witness :
    (c7State.textInput.visible = false)
    ∧ (c7State.selectedShapeId = some 1)
    ∧ (c7State.shapes.find? (fun t => t.id == 1) = some c7Shape)
    ∧ (c7Shape.isLocked = false)
    ∧ ((handleArrowKey c7State ArrowDir.right false).shapes.find? (fun t => t.id == 1)
        = some { c7Shape with points := c7Shape.points.map (fun p =>
            ⟨p.x + (nudgeVec ArrowDir.right ((if false then (10 : ℚ) else 1) / c7State.scale)).x,
             p.y + (nudgeVec ArrowDir.right ((if false then (10 : ℚ) else 1) / c7State.scale)).y⟩) }) :=
  ⟨rfl, rfl, by simp [c7State, c7Shape, baseState, List.find?], rfl,
    (nudge_moves_by_scaled_step_and_never_commits c7State ArrowDir.right false 1 c7Shape
      rfl rfl (by simp [c7State, c7Shape, baseState, List.find?]) rfl).1⟩

/-! ## C1: undo after a committed freehand stroke -/

/-- The state after a freehand gesture sampling the five points
(0,0),(1,0),(2,0),(3,0),(4,0) at scale 1, offset (0,0): pointer-down (which
appends the one-point stroke), four pointer-moves (each appending a sample),
then pointer-up (which commits via `saveHistory(shapes)`). -/
def c1AfterStroke : EngineState :=
  stopDrawing
    (draw (draw (draw (draw (startDrawing baseState ⟨0, 0⟩ 0 42)
      ⟨1, 0⟩ ⟨1, 0⟩) ⟨2, 0⟩ ⟨1, 0⟩) ⟨3, 0⟩ ⟨1, 0⟩) ⟨4, 0⟩ ⟨1, 0⟩) 99

/-- C1 (code bug): after committing a freehand stroke of 5 sampled points,
the single undo-stack entry is the *post-stroke* sequence itself (because
`stopDrawing` runs `saveHistory(shapes)` only after the stroke was already
grown in place), so `undo` restores a state still containing the stroke:
the scene shape count after undo is 1, not the 0 the claim requires. -/
theorem freehand_commit_undo_keeps_stroke :
    c1AfterStroke.shapes.map (fun s => s.points.length) = [5]
    ∧ c1AfterStroke.undoStack = [c1AfterStroke.shapes]
    ∧ (undo c1AfterStroke).shapes.length = 1
    ∧ (undo c1AfterStroke).shapes = c1AfterStroke.shapes := by
  have hs : c1AfterStroke.shapes
      = [{ id := 42, tool := Tool.pencil
         , points := [⟨0, 0⟩, ⟨1, 0⟩, ⟨2, 0⟩, ⟨3, 0⟩, ⟨4, 0⟩]
         , color := "#6366f1", size := 5, isFilled := false }] := by
    simp [c1AfterStroke, startDrawing, draw, stopDrawing, saveHistory, toWorldCoords,
      applySnap, baseState]
  have hu : c1AfterStroke.undoStack = [c1AfterStroke.shapes] := by
    rw [hs]
    simp [c1AfterStroke, startDrawing, draw, stopDrawing, saveHistory, toWorldCoords,
      applySnap, baseState, MAX_HISTORY]
  have hundo : undo c1AfterStroke
      = { c1AfterStroke with
          redoStack := c1AfterStroke.redoStack ++ [c1AfterStroke.shapes]
          undoStack := c1AfterStroke.undoStack.dropLast
          shapes := c1AfterStroke.shapes
          selectedShapeId := none } := by
    unfold undo
    rw [show c1AfterStroke.undoStack.getLast? = some c1AfterStroke.shapes from by
      rw [hu]; rfl]
  refine ⟨by rw [hs]; rfl, hu, ?_, by rw [hundo]⟩
  rw [hundo, hs]
  rfl

/-! ## C2: history snapshots alias live Point objects

JavaScript objects have reference semantics: `saveHistory` stores the live
`shapes` array, shape spreads `{ ...s }` copy field references, and
`[...s.points]` copies an array of *references* to the same Point objects.
To express this, Point objects are modelled as indices into a store, exactly
mirroring how the resizing branch of `draw` (part_000 lines 745-767) writes
`newPoints[i].x += dx` through such a reference. -/

/-- A shape whose `points` are references (store indices) to Point objects. -/
structure HShape where
  id : Nat
  points : List Nat
  deriving DecidableEq, Repr

/-- Scene state with explicit Point-object store. -/
structure HeapState where
  store : List Point
  shapes : List HShape
  undoStack : List (List HShape)
  redoStack : List (List HShape)
  deriving DecidableEq, Repr

/-- Read a shape's point values through its references. -/
def derefShape (store : List Point) (s : HShape) : List Point :=
  s.points.map (fun i => store.getD i ⟨0, 0⟩)

/-- `saveHistory` in the heap model: the pushed entry is the live `shapes`
value — lists of *references*, no deep copy anywhere (part_000 line 134). -/
def saveHistoryH (st : HeapState) (newShapes : List HShape) : HeapState :=
  { st with
    undoStack := st.undoStack.drop (st.undoStack.length - (MAX_HISTORY - 1)) ++ [st.shapes]
    redoStack := []
    shapes := newShapes }

/-- One resizing `draw` step (part_000 lines 745-767) in the heap model.
`const newPoints = [...s.points]` duplicates the reference list, and
`newPoints[i].x += dx` / `.y += dy` mutate the shared Point objects in the
store; the live shape list itself keeps the same references. -/
def resizeH (st : HeapState) (selId : Nat) (handle : ResizeHandle) (dx dy : ℚ) :
    HeapState :=
  match st.shapes.find? (fun s => s.id == selId) with
  | none => st
  | some s =>
    match s.points with
    | i1 :: i2 :: _ =>
      let p1 := st.store.getD i1 ⟨0, 0⟩
      let p2 := st.store.getD i2 ⟨0, 0⟩
      let minXPtr := if p1.x < p2.x then i1 else i2
      let maxXPtr := if p1.x < p2.x then i2 else i1
      let minYPtr := if p1.y < p2.y then i1 else i2
      let maxYPtr := if p1.y < p2.y then i2 else i1
      let addX : List Point → Nat → List Point := fun store i =>
        store.modify (fun p => { p with x := p.x + dx }) i
      let addY : List Point → Nat → List Point := fun store i =>
        store.modify (fun p => { p with y := p.y + dy }) i
      let store' :=
        match handle with
        | .nw => addY (addX st.store minXPtr) minYPtr
        | .n => addY st.store minYPtr
        | .ne => addY (addX st.store maxXPtr) minYPtr
        | .e => addX st.store maxXPtr
        | .se => addY (addX st.store maxXPtr) maxYPtr
        | .s => addY st.store maxYPtr
        | .sw => addY (addX st.store minXPtr) maxYPtr
        | .w => addX st.store minXPtr
      { st with store := store' }
    | _ => st

/-- The heap trace for C2: Point objects (0,0) and (100,50) are allocated, a
rectangle referencing them is committed, a second commit pushes the history
entry `[rect]`, then an `se` resize moves the pointer by (+20,+10). -/
def c2Rect : HShape := { id := 1, points := [0, 1] }

def c2Committed : HeapState :=
  saveHistoryH
    (saveHistoryH { store := [⟨0, 0⟩, ⟨100, 50⟩], shapes := [], undoStack := [], redoStack := [] }
      [c2Rect])
    [c2Rect]

def c2Resized : HeapState := resizeH c2Committed 1 ResizeHandle.se 20 10

/-- C2 (code bug): the history entry pushed at commit time reads back as the
rectangle (0,0)-(100,50), but after the subsequent in-place `se` resize of the
live scene the *same* entry reads back as (0,0)-(120,60): the snapshot aliases
the live Point objects and is corrupted by the resize gesture. -/
theorem resize_corrupts_history_snapshot :
    c2Committed.undoStack.getLast? = some [c2Rect]
    ∧ (derefShape c2Committed.store c2Rect) = [⟨0, 0⟩, ⟨100, 50⟩]
    ∧ c2Resized.undoStack.getLast? = some [c2Rect]
    ∧ (derefShape c2Resized.store c2Rect) = [⟨0, 0⟩, ⟨120, 60⟩] := by
  refine ⟨?_, ?_, ?_, ?_⟩ <;>
    simp [c2Resized, c2Committed, c2Rect, saveHistoryH, resizeH, derefShape,
      MAX_HISTORY, List.find?] <;> norm_num

/-! ## C8: grid snapping -/

theorem applySnap_onGrid (g v : ℚ) : OnGrid g (applySnap true g v) :=
  ⟨round (v / g), by simp [applySnap]⟩

/-- The snapped world point a pointer event at client position `c` produces. -/
def snapAt (st : EngineState) (c : Point) : Point :=
  ⟨applySnap st.snapToGrid st.gridSpacing ((toWorldCoords st.offset st.scale c.x c.y).x),
   applySnap st.snapToGrid st.gridSpacing ((toWorldCoords st.offset st.scale c.x c.y).y)⟩

/-- Invariant carried through a freehand gesture with snapping on. -/
structure PencilInv (g : ℚ) (st : EngineState) : Prop where
  tool_ok : st.tool = Tool.pencil ∨ st.tool = Tool.eraser
  snap_on : st.snapToGrid = true
  spacing : st.gridSpacing = g
  drawing : st.isDrawing = true
  no_pan : st.isPanning = false
  no_drag : st.isDragging = false
  no_resize : st.isResizing = false
  no_rotate : st.isRotating = false
  last_ok : ∃ stroke, st.shapes.getLast? = some stroke
    ∧ stroke.tool = st.tool
    ∧ ∀ p ∈ stroke.points, OnGrid g p.x ∧ OnGrid g p.y

theorem startDrawing_pencil_eq (st : EngineState) (c : Point) (fid : Nat)
    (htool : st.tool = Tool.pencil ∨ st.tool = Tool.eraser)
    (hspace : st.isSpacePressed = false) :
    startDrawing st c 0 fid
      = { st with
          startPos := snapAt st c
          currentPos := snapAt st c
          isDrawing := true
          selectedShapeId := none
          shapes := st.shapes ++
            [{ id := fid
             , tool := st.tool
             , points := [snapAt st c]
             , color := st.color
             , size := st.brushSize / st.scale
             , isFilled := false }] } := by
  rcases htool with h | h <;> simp [startDrawing, h, hspace, snapAt]

theorem draw_pencil_eq (st : EngineState) (c : Point) (ro : Rot) (stroke : Shape)
    (htool : st.tool = Tool.pencil ∨ st.tool = Tool.eraser)
    (hpan : st.isPanning = false) (hdrag : st.isDragging = false)
    (hres : st.isResizing = false) (hrot : st.isRotating = false)
    (hdrw : st.isDrawing = true)
    (hlast : st.shapes.getLast? = some stroke)
    (hstool : stroke.tool = st.tool) :
    draw st c ro
      = { st with
          currentPos := snapAt st c
          shapes := st.shapes.dropLast ++
            [{ stroke with points := stroke.points ++ [snapAt st c] }] } := by
  rcases htool with h | h <;>
    simp [draw, h, hpan, hdrag, hres, hrot, hdrw, hlast, hstool, snapAt]

theorem draw_pencilInv (g : ℚ) (st : EngineState) (c : Point) (ro : Rot)
    (h : PencilInv g st) : PencilInv g (draw st c ro) := by
  obtain ⟨stroke, hlast, hstool, hpts⟩ := h.last_ok
  rw [draw_pencil_eq st c ro stroke h.tool_ok h.no_pan h.no_drag h.no_resize
    h.no_rotate h.drawing hlast hstool]
  refine ⟨h.tool_ok, h.snap_on, h.spacing, h.drawing, h.no_pan, h.no_drag,
    h.no_resize, h.no_rotate, ?_⟩
  refine ⟨{ stroke with points := stroke.points ++ [snapAt st c] },
    List.getLast?_concat _, hstool, ?_⟩
  intro p hp
  rcases List.mem_append.mp hp with hmem | hmem
  · exact hpts p hmem
  · rw [List.mem_singleton.mp hmem]
    constructor <;>
      · show OnGrid g (applySnap st.snapToGrid st.gridSpacing _)
        rw [h.snap_on, h.spacing]
        exact applySnap_onGrid g _

theorem foldl_draw_pencilInv (g : ℚ) (moves : List (Point × Rot)) (st : EngineState)
    (h : PencilInv g st) :
    PencilInv g (moves.foldl (fun s m => draw s m.1 m.2) st) := by
  induction moves generalizing st with
  | nil => exact h
  | cons m ms ih => exact ih _ (draw_pencilInv g st m.1 m.2 h)

theorem stopDrawing_pencil_eq (st : EngineState) (uid : Nat)
    (htool : st.tool = Tool.pencil ∨ st.tool = Tool.eraser)
    (hpan : st.isPanning = false) (hdrag : st.isDragging = false)
    (hres : st.isResizing = false) (hrot : st.isRotating = false)
    (hdrw : st.isDrawing = true) :
    stopDrawing st uid = { saveHistory st st.shapes with isDrawing := false } := by
  rcases htool with h | h <;>
    simp [stopDrawing, h, hpan, hdrag, hres, hrot, hdrw, saveHistory]

/-- Invariant carried through a two-point drawing gesture with snapping on. -/
structure TwoPointInv (g : ℚ) (st : EngineState) : Prop where
  tool_ok : st.tool = Tool.rect ∨ st.tool = Tool.roundRect ∨ st.tool = Tool.circle
    ∨ st.tool = Tool.line ∨ st.tool = Tool.dashedLine ∨ st.tool = Tool.arrow
  snap_on : st.snapToGrid = true
  spacing : st.gridSpacing = g
  drawing : st.isDrawing = true
  no_pan : st.isPanning = false
  no_drag : st.isDragging = false
  no_resize : st.isResizing = false
  no_rotate : st.isRotating = false
  start_ok : OnGrid g st.startPos.x ∧ OnGrid g st.startPos.y

theorem startDrawing_twoPoint_eq (st : EngineState) (c : Point) (fid : Nat)
    (htool : st.tool = Tool.rect ∨ st.tool = Tool.roundRect ∨ st.tool = Tool.circle
      ∨ st.tool = Tool.line ∨ st.tool = Tool.dashedLine ∨ st.tool = Tool.arrow)
    (hspace : st.isSpacePressed = false) :
    startDrawing st c 0 fid
      = { st with
          startPos := snapAt st c
          currentPos := snapAt st c
          isDrawing := true
          selectedShapeId := none } := by
  rcases htool with h | h | h | h | h | h <;> simp [startDrawing, h, hspace, snapAt]

theorem draw_twoPoint_eq (st : EngineState) (c : Point) (ro : Rot)
    (htool : st.tool = Tool.rect ∨ st.tool = Tool.roundRect ∨ st.tool = Tool.circle
      ∨ st.tool = Tool.line ∨ st.tool = Tool.dashedLine ∨ st.tool = Tool.arrow)
    (hpan : st.isPanning = false) (hdrag : st.isDragging = false)
    (hres : st.isResizing = false) (hrot : st.isRotating = false) :
    draw st c ro = { st with currentPos := snapAt st c } := by
  rcases htool with h | h | h | h | h | h <;>
    simp [draw, h, hpan, hdrag, hres, hrot, snapAt]

theorem draw_twoPointInv (g : ℚ) (st : EngineState) (c : Point) (ro : Rot)
    (h : TwoPointInv g st) : TwoPointInv g (draw st c ro) := by
  rw [draw_twoPoint_eq st c ro h.tool_ok h.no_pan h.no_drag h.no_resize h.no_rotate]
  exact ⟨h.tool_ok, h.snap_on, h.spacing, h.drawing, h.no_pan, h.no_drag,
    h.no_resize, h.no_rotate, h.start_ok⟩

theorem foldl_draw_twoPointInv (g : ℚ) (moves : List (Point × Rot)) (st : EngineState)
    (h : TwoPointInv g st) :
    TwoPointInv g (moves.foldl (fun s m => draw s m.1 m.2) st) := by
  induction moves generalizing st with
  | nil => exact h
  | cons m ms ih => exact ih _ (draw_twoPointInv g st m.1 m.2 h)

theorem stopDrawing_twoPoint_last (g : ℚ) (st : EngineState) (uid : Nat)
    (h : TwoPointInv g st) :
    ∃ sh, (stopDrawing st uid).shapes.getLast? = some sh
      ∧ ∀ p ∈ sh.points, OnGrid g p.x ∧ OnGrid g p.y := by
  have hsnap := h.snap_on
  have hspc := h.spacing
  have hgoal : ∀ endP : Point,
      ∀ p ∈ [st.startPos,
        (⟨applySnap st.snapToGrid st.gridSpacing endP.x,
          applySnap st.snapToGrid st.gridSpacing endP.y⟩ : Point)],
        OnGrid g p.x ∧ OnGrid g p.y := by
    intro endP p hp
    rcases List.mem_cons.mp hp with hmem | hmem
    · rw [hmem]; exact h.start_ok
    · rw [List.mem_singleton.mp hmem]
      constructor <;>
        · show OnGrid g (applySnap st.snapToGrid st.gridSpacing _)
          rw [hsnap, hspc]
          exact applySnap_onGrid g _
  rcases h.tool_ok with ht | ht | ht | ht | ht | ht <;>
    · simp only [stopDrawing, ht, h.no_pan, h.no_drag, h.no_resize, h.no_rotate,
        h.drawing, saveHistory]
      norm_num
      exact ⟨_, List.getLast?_concat _, hgoal _⟩

theorem handleTextSubmit_last (g : ℚ) (st : EngineState) (fid : Nat)
    (hsnap : st.snapToGrid = true) (hspc : st.gridSpacing = g)
    (hval : st.textInput.value.trim ≠ "") :
    ∃ t, (handleTextSubmit st fid).shapes.getLast? = some t
      ∧ ∀ p ∈ t.points, OnGrid g p.x ∧ OnGrid g p.y := by
  simp only [handleTextSubmit, hval, if_true, ne_eq, not_false_eq_true, if_pos,
    saveHistory]
  refine ⟨_, List.getLast?_concat _, ?_⟩
  intro p hp
  rw [List.mem_singleton.mp hp]
  constructor <;>
    · show OnGrid g (applySnap st.snapToGrid st.gridSpacing _)
      rw [hsnap, hspc]
      exact applySnap_onGrid g _

/-- C8 (amended): with grid snap enabled, pointer coordinates are rounded to
exact multiples of the spacing before use, so a freehand gesture, a two-point
drawing gesture, and a text placement each commit a shape *all* of whose
coordinates are exact grid multiples.  (Snapping does not extend this
guarantee to dragging — which translates the shape by differences of snapped
pointer positions, preserving whatever residues the points already had — nor
to resizing, whose first move applies the difference between a snapped pointer
position and the raw, unsnapped pointer-down position: see the
counterexample.) -/
theorem snap_drawing_and_text_commit_on_grid (g : ℚ) :
    (∀ v, OnGrid g (applySnap true g v))
    ∧ (∀ (st : EngineState) (c : Point) (fid : Nat) (moves : List (Point × Rot)) (uid : Nat),
        st.tool = Tool.pencil ∨ st.tool = Tool.eraser →
        st.snapToGrid = true → st.gridSpacing = g → st.isSpacePressed = false →
        st.isPanning = false → st.isDragging = false → st.isResizing = false →
        st.isRotating = false →
        ∃ stroke,
          (stopDrawing (moves.foldl (fun s m => draw s m.1 m.2)
              (startDrawing st c 0 fid)) uid).shapes.getLast? = some stroke
          ∧ ∀ p ∈ stroke.points, OnGrid g p.x ∧ OnGrid g p.y)
    ∧ (∀ (st : EngineState) (c : Point) (fid : Nat) (moves : List (Point × Rot)) (uid : Nat),
        (st.tool = Tool.rect ∨ st.tool = Tool.roundRect ∨ st.tool = Tool.circle
          ∨ st.tool = Tool.line ∨ st.tool = Tool.dashedLine ∨ st.tool = Tool.arrow) →
        st.snapToGrid = true → st.gridSpacing = g → st.isSpacePressed = false →
        st.isPanning = false → st.isDragging = false → st.isResizing = false →
        st.isRotating = false →
        ∃ sh,
          (stopDrawing (moves.foldl (fun s m => draw s m.1 m.2)
              (startDrawing st c 0 fid)) uid).shapes.getLast? = some sh
          ∧ ∀ p ∈ sh.points, OnGrid g p.x ∧ OnGrid g p.y)
    ∧ (∀ (st : EngineState) (fid : Nat),
        st.snapToGrid = true → st.gridSpacing = g → st.textInput.value.trim ≠ "" →
        ∃ t, (handleTextSubmit st fid).shapes.getLast? = some t
          ∧ ∀ p ∈ t.points, OnGrid g p.x ∧ OnGrid g p.y) := by
  refine ⟨applySnap_onGrid g, ?_, ?_, fun st fid h1 h2 h3 => handleTextSubmit_last g st fid h1 h2 h3⟩
  · intro st c fid moves uid htool hsnap hspc hspace hpan hdrag hres hrot
    have hinv0 : PencilInv g (startDrawing st c 0 fid) := by
      rw [startDrawing_pencil_eq st c fid htool hspace]
      refine ⟨htool, hsnap, hspc, rfl, hpan, hdrag, hres, hrot, ?_⟩
      refine ⟨_, List.getLast?_concat _, rfl, ?_⟩
      intro p hp
      rw [List.mem_singleton.mp hp]
      constructor <;>
        · show OnGrid g (applySnap st.snapToGrid st.gridSpacing _)
          rw [hsnap, hspc]
          exact applySnap_onGrid g _
    have hinv := foldl_draw_pencilInv g moves _ hinv0
    obtain ⟨stroke, hlast, hstool, hpts⟩ := hinv.last_ok
    rw [stopDrawing_pencil_eq _ uid hinv.tool_ok hinv.no_pan hinv.no_drag
      hinv.no_resize hinv.no_rotate hinv.drawing]
    exact ⟨stroke, hlast, hpts⟩
  · intro st c fid moves uid htool hsnap hspc hspace hpan hdrag hres hrot
    have hinv0 : TwoPointInv g (startDrawing st c 0 fid) := by
      rw [startDrawing_twoPoint_eq st c fid htool hspace]
      refine ⟨htool, hsnap, hspc, rfl, hpan, hdrag, hres, hrot, ?_⟩
      constructor <;>
        · show OnGrid g (applySnap st.snapToGrid st.gridSpacing _)
          rw [hsnap, hspc]
          exact applySnap_onGrid g _
    have hinv := foldl_draw_twoPointInv g moves _ hinv0
    exact stopDrawing_twoPoint_last g _ uid hinv

/-- The snapped 40x40 rectangle of the C8 counterexample. -/
def c8Shape : Shape :=
  { id := 1, tool := Tool.rect, points := [⟨0, 0⟩, ⟨40, 40⟩]
  , color := "#6366f1", size := 5, isFilled := false }

/-- C8 counterexample start state: snap enabled with spacing 40, the snapped
rectangle selected, selection tool active. -/
def c8Start : EngineState :=
  { baseState with
    tool := Tool.move
    snapToGrid := true
    gridSpacing := 40
    shapes := [c8Shape]
    selectedShapeId := some 1 }

/-- The C8 counterexample gesture: pointer-down at (43,43) grabs the `se`
resize handle (within 12 world units of the corner (40,40)); one pointer-move
to the grid point (80,80); release. -/
def c8Final : EngineState :=
  stopDrawing (draw (startDrawing c8Start ⟨43, 43⟩ 0 5) ⟨80, 80⟩ ⟨1, 0⟩) 6

/-- C8 counterexample: the resize gesture performed entirely with snap enabled
leaves the shape with corner (77,77) — `dx = snap(80) - 43 = 37` is applied to
the raw pointer-down position — and 77 is not a multiple of the spacing 40,
contradicting the claim that every affected coordinate ends on the grid. -/
theorem snap_resize_counterexample :
    c8Start.snapToGrid = true
    ∧ (c8Final.shapes.map Shape.points) = [[⟨0, 0⟩, ⟨77, 77⟩]]
    ∧ ¬ OnGrid 40 77 := by
  refine ⟨rfl, ?_, ?_⟩
  · simp [c8Final, c8Start, c8Shape, baseState, startDrawing, draw, stopDrawing,
      saveHistory, toWorldCoords, applySnap, checkRotationHandleHit,
      checkResizeHandleHit, checkHit, resizeShape, resizeHandleOrder, baseHandlePoint,
      distSq, qmin, qmax, List.find?, round_eq]
    norm_num [Int.floor_eq_iff]
    norm_num [resizeShape, List.modify]
  · rintro ⟨k, hk⟩
    have hk' : (77 : ℤ) = k * 40 := by exact_mod_cast hk
    omega

/-- Witness for the amended C8: a freehand stroke at spacing 40 — pointer-down
at client (43,43) (snapping to (40,40)) and one move to (61,0) (snapping to
(80,0)) — commits a stroke whose coordinates are all grid multiples. -/
theorem snap_drawing_and_text_commit_on_grid_witness :
    ∃ stroke,
      (stopDrawing (([(⟨61, 0⟩, ⟨1, 0⟩)] : List (Point × Rot)).foldl
          (fun s m => draw s m.1 m.2)
          (startDrawing { baseState with snapToGrid := true } ⟨43, 43⟩ 0 5)) 6).shapes.getLast?
        = some stroke
      ∧ ∀ p ∈ stroke.points, OnGrid 40 p.x ∧ OnGrid 40 p.y :=
  (snap_drawing_and_text_commit_on_grid 40).2.1
    { baseState with snapToGrid := true } ⟨43, 43⟩ 5 [(⟨61, 0⟩, ⟨1, 0⟩)] 6
    (Or.inl rfl) rfl rfl rfl rfl rfl rfl rfl

/-! ## C5: locked shapes are immune -/

/-- The scene operations C5 quantifies over: a full selection-tool pointer
gesture (pointer-down, any number of pointer-moves, pointer-up), an arrow-key
nudge, and a Delete/Backspace press. -/
inductive UserOp where
  | gesture (downClient : Point) (button : Nat) (downId : Nat)
      (moves : List (Point × Rot)) (upId : Nat)
  | arrow (dir : ArrowDir) (shiftKey : Bool)
  | del
  deriving Repr

def applyOp (st : EngineState) : UserOp → EngineState
  | .gesture c b fid moves uid =>
    stopDrawing (moves.foldl (fun x m => draw x m.1 m.2) (startDrawing st c b fid)) uid
  | .arrow dir sh => handleArrowKey st dir sh
  | .del => deleteKey st

/-- Invariant carried through a selection-tool gesture around the locked
shape `s`: whenever one of the mutating flags is on, the selected shape exists
and is unlocked (so `s` is never the mutation target). -/
structure GestureInv (s : Shape) (st : EngineState) : Prop where
  tool_eq : st.tool = Tool.move
  not_drawing : st.isDrawing = false
  nodup : (st.shapes.map Shape.id).Nodup
  mem : s ∈ st.shapes
  flag_unlocked : (st.isDragging = true ∨ st.isResizing = true ∨ st.isRotating = true) →
    ∃ sid tgt, st.selectedShapeId = some sid
      ∧ st.shapes.find? (fun t => t.id == sid) = some tgt ∧ tgt.isLocked = false

theorem startDrawing_gestureInv (s : Shape) (st : EngineState) (c : Point) (b : Nat)
    (fid : Nat)
    (hlock : s.isLocked = true) (htool : st.tool = Tool.move)
    (hdrw : st.isDrawing = false) (hdrag : st.isDragging = false)
    (hres : st.isResizing = false) (hrot : st.isRotating = false)
    (hnodup : (st.shapes.map Shape.id).Nodup) (hmem : s ∈ st.shapes) :
    GestureInv s (startDrawing st c b fid) := by
  have hvac : ∀ st' : EngineState, st'.tool = Tool.move → st'.isDrawing = false →
      st'.shapes = st.shapes → st'.isDragging = false → st'.isResizing = false →
      st'.isRotating = false → GestureInv s st' := by
    intro st' e1 e2 e3 e4 e5 e6
    refine ⟨e1, e2, e3 ▸ hnodup, e3 ▸ hmem, ?_⟩
    intro hf
    rcases hf with hf | hf | hf
    · rw [e4] at hf; exact absurd hf (by simp)
    · rw [e5] at hf; exact absurd hf (by simp)
    · rw [e6] at hf; exact absurd hf (by simp)
  have hdragcase : ∀ hit : Shape, hit ∈ st.shapes → hit.isLocked = false →
      ∃ sid tgt, (some hit.id : Option Nat) = some sid
        ∧ st.shapes.find? (fun t => t.id == sid) = some tgt ∧ tgt.isLocked = false := by
    intro hit hhmem hl
    have hsome : (st.shapes.find? (fun t => t.id == hit.id)).isSome :=
      List.find?_isSome.mpr ⟨hit, hhmem, by simp⟩
    obtain ⟨tgt, htgt⟩ := Option.isSome_iff_exists.mp hsome
    have hteq : tgt = hit := by
      have h1 : tgt.id = hit.id := by simpa using List.find?_some htgt
      exact eq_of_mem_of_nodup_ids hnodup (List.mem_of_find?_eq_some htgt) hhmem h1
    exact ⟨hit.id, tgt, rfl, htgt, hteq ▸ hl⟩
  by_cases hpan : (st.isSpacePressed || b == 1 || b == 2 || st.tool == Tool.hand) = true
  · simp only [startDrawing, hpan, if_true]
    exact hvac _ htool hdrw rfl hdrag hres hrot
  · obtain ⟨⟨⟨hsp, hb1⟩, hb2⟩, -⟩ :
        ((st.isSpacePressed = false ∧ ¬b = 1) ∧ ¬b = 2) ∧ ¬st.tool = Tool.hand := by
      simpa using hpan
    rcases hsel : st.selectedShapeId with _ | sid
    · rcases hhit : st.shapes.reverse.find? (fun t => checkHit st.scale
          (toWorldCoords st.offset st.scale c.x c.y) t) with _ | hit
      · simp [startDrawing, hsp, hb1, hb2, htool, hsel, hhit]
        exact hvac _ rfl hdrw rfl hdrag hres hrot
      · have hhmem : hit ∈ st.shapes := List.mem_reverse.mp (List.mem_of_find?_eq_some hhit)
        by_cases hl : hit.isLocked = true
        · simp [startDrawing, hsp, hb1, hb2, htool, hsel, hhit, hl]
          exact hvac _ rfl hdrw rfl hdrag hres hrot
        · replace hl : hit.isLocked = false := by simpa using hl
          simp [startDrawing, hsp, hb1, hb2, htool, hsel, hhit, hl]
          exact ⟨rfl, hdrw, hnodup, hmem, fun _ => hdragcase hit hhmem hl⟩
    · rcases hfind : st.shapes.find? (fun t => t.id == sid) with _ | selectedShape
      · rcases hhit : st.shapes.reverse.find? (fun t => checkHit st.scale
            (toWorldCoords st.offset st.scale c.x c.y) t) with _ | hit
        · simp [startDrawing, hsp, hb1, hb2, htool, hsel, hfind, hhit]
          exact hvac _ rfl hdrw rfl hdrag hres hrot
        · have hhmem : hit ∈ st.shapes :=
            List.mem_reverse.mp (List.mem_of_find?_eq_some hhit)
          by_cases hl : hit.isLocked = true
          · simp [startDrawing, hsp, hb1, hb2, htool, hsel, hfind, hhit, hl]
            exact hvac _ rfl hdrw rfl hdrag hres hrot
          · replace hl : hit.isLocked = false := by simpa using hl
            simp [startDrawing, hsp, hb1, hb2, htool, hsel, hfind, hhit, hl]
            exact ⟨rfl, hdrw, hnodup, hmem, fun _ => hdragcase hit hhmem hl⟩
      · by_cases hl : selectedShape.isLocked = true
        · rcases hhit : st.shapes.reverse.find? (fun t => checkHit st.scale
              (toWorldCoords st.offset st.scale c.x c.y) t) with _ | hit
          · simp [startDrawing, hsp, hb1, hb2, htool, hsel, hfind, hhit, hl]
            exact hvac _ rfl hdrw rfl hdrag hres hrot
          · have hhmem : hit ∈ st.shapes :=
              List.mem_reverse.mp (List.mem_of_find?_eq_some hhit)
            by_cases hl2 : hit.isLocked = true
            · simp [startDrawing, hsp, hb1, hb2, htool, hsel, hfind, hhit, hl, hl2]
              exact hvac _ rfl hdrw rfl hdrag hres hrot
            · replace hl2 : hit.isLocked = false := by simpa using hl2
              simp [startDrawing, hsp, hb1, hb2, htool, hsel, hfind, hhit, hl, hl2]
              exact ⟨rfl, hdrw, hnodup, hmem, fun _ => hdragcase hit hhmem hl2⟩
        · replace hl : selectedShape.isLocked = false := by simpa using hl
          by_cases hrh : checkRotationHandleHit st.scale
              (toWorldCoords st.offset st.scale c.x c.y) selectedShape = true
          · simp [startDrawing, hsp, hb1, hb2, htool, hsel, hfind, hl, hrh]
            exact ⟨rfl, hdrw, hnodup, hmem,
              fun _ => ⟨sid, selectedShape, rfl, hfind, hl⟩⟩
          · rcases hrs : checkResizeHandleHit st.scale
                (toWorldCoords st.offset st.scale c.x c.y) selectedShape with _ | handle
            · rcases hhit : st.shapes.reverse.find? (fun t => checkHit st.scale
                  (toWorldCoords st.offset st.scale c.x c.y) t) with _ | hit
              · simp [startDrawing, hsp, hb1, hb2, htool, hsel, hfind, hl, hrh, hrs, hhit]
                exact hvac _ rfl hdrw rfl hdrag hres hrot
              · have hhmem : hit ∈ st.shapes :=
                  List.mem_reverse.mp (List.mem_of_find?_eq_some hhit)
                by_cases hl2 : hit.isLocked = true
                · simp [startDrawing, hsp, hb1, hb2, htool, hsel, hfind, hl, hrh, hrs, hhit, hl2]
                  exact hvac _ rfl hdrw rfl hdrag hres hrot
                · replace hl2 : hit.isLocked = false := by simpa using hl2
                  simp [startDrawing, hsp, hb1, hb2, htool, hsel, hfind, hl, hrh, hrs, hhit, hl2]
                  exact ⟨rfl, hdrw, hnodup, hmem, fun _ => hdragcase hit hhmem hl2⟩
            · simp [startDrawing, hsp, hb1, hb2, htool, hsel, hfind, hl, hrh, hrs]
              exact ⟨rfl, hdrw, hnodup, hmem,
                fun _ => ⟨sid, selectedShape, rfl, hfind, hl⟩⟩

theorem draw_gestureInv (s : Shape) (st : EngineState) (client : Point) (ro : Rot)
    (hlock : s.isLocked = true) (hinv : GestureInv s st) :
    GestureInv s (draw st client ro) := by
  have hmk2 : ∀ st' : EngineState, st'.tool = st.tool → st'.isDrawing = st.isDrawing →
      st'.shapes = st.shapes → st'.selectedShapeId = st.selectedShapeId →
      st'.isDragging = st.isDragging → st'.isResizing = st.isResizing →
      st'.isRotating = st.isRotating → GestureInv s st' := by
    intro st' e1 e2 e3 e4 e5 e6 e7
    refine ⟨e1 ▸ hinv.tool_eq, e2 ▸ hinv.not_drawing, e3 ▸ hinv.nodup, e3 ▸ hinv.mem, ?_⟩
    intro hf
    rw [e5, e6, e7] at hf
    obtain ⟨sid, tgt, ha, hb, hc⟩ := hinv.flag_unlocked hf
    exact ⟨sid, tgt, e4 ▸ ha, e3 ▸ hb, hc⟩
  have hmk1 : ∀ st' : EngineState, st'.tool = Tool.move → st'.isDrawing = false →
      st'.shapes = st.shapes → st'.isDragging = false → st'.isResizing = false →
      st'.isRotating = false → GestureInv s st' := by
    intro st' e1 e2 e3 e4 e5 e6
    refine ⟨e1, e2, e3 ▸ hinv.nodup, e3 ▸ hinv.mem, ?_⟩
    intro hf
    rcases hf with hf | hf | hf
    · rw [e4] at hf; exact absurd hf (by simp)
    · rw [e5] at hf; exact absurd hf (by simp)
    · rw [e6] at hf; exact absurd hf (by simp)
  have hmap : ∀ (sid : Nat) (f : Shape → Shape) (st' : EngineState),
      st.selectedShapeId = some sid →
      (st.isDragging = true ∨ st.isResizing = true ∨ st.isRotating = true) →
      (∀ t, (f t).id = t.id) → (∀ t, (f t).isLocked = t.isLocked) →
      (∀ t, (t.id == sid) = false → f t = t) →
      st'.tool = st.tool → st'.isDrawing = st.isDrawing →
      st'.shapes = st.shapes.map f →
      st'.selectedShapeId = st.selectedShapeId →
      GestureInv s st' := by
    intro sid f st' hsid hflag hid hlk hfx e1 e2 e3 e4
    obtain ⟨sid', tgt, ha, hb, hc⟩ := hinv.flag_unlocked hflag
    have hsid' : sid' = sid := by
      rw [hsid] at ha
      exact (Option.some.inj ha).symm
    subst hsid'
    have hne : (s.id == sid') = false := locked_ne_target hinv.nodup hinv.mem hlock hb hc
    have hidmap : (st.shapes.map f).map Shape.id = st.shapes.map Shape.id := by
      rw [List.map_map]
      exact List.map_congr_left (fun t _ => hid t)
    refine ⟨e1 ▸ hinv.tool_eq, e2 ▸ hinv.not_drawing, ?_, ?_, ?_⟩
    · rw [e3, hidmap]
      exact hinv.nodup
    · rw [e3]
      exact mem_map_of_fix hinv.mem f (hfx s hne)
    · intro _
      refine ⟨sid', f tgt, by rw [e4, ha], ?_, by rw [hlk]; exact hc⟩
      rw [e3, find?_map_of_pred _ _ _ (fun t => by
        show ((f t).id == sid') = (t.id == sid')
        rw [hid]), hb]
      rfl
  have hdrw0 : st.isDrawing = false := hinv.not_drawing
  by_cases hpan : st.isPanning = true
  · simp only [draw, hpan, if_true]
    exact hmk2 _ rfl rfl rfl rfl rfl rfl rfl
  · by_cases hd : st.isDragging = true
    · rcases hsel : st.selectedShapeId with _ | sid
      · simp [draw, hpan, hd, hsel, hdrw0]
        exact hmk2 _ rfl hdrw0.symm rfl (by rw [hsel]) hd.symm rfl rfl
      · simp [draw, hpan, hd, hsel, hdrw0]
        exact hmap sid _ _ hsel (Or.inl hd)
          (fun t => by by_cases h : t.id = sid <;> simp [h])
          (fun t => by by_cases h : t.id = sid <;> simp [h])
          (fun t ht => by
            have h : ¬t.id = sid := by simpa using ht
            simp [h])
          rfl hdrw0.symm rfl (by rw [hsel])
    · replace hd : st.isDragging = false := by simpa using hd
      by_cases hro : st.isRotating = true
      · rcases hsel : st.selectedShapeId with _ | sid
        · simp [draw, hpan, hd, hro, hsel, hdrw0]
          exact hmk2 _ rfl hdrw0.symm rfl (by rw [hsel]) hd.symm rfl hro.symm
        · simp [draw, hpan, hd, hro, hsel, hdrw0]
          exact hmap sid _ _ hsel (Or.inr (Or.inr hro))
            (fun t => by by_cases h : t.id = sid <;> simp [h])
            (fun t => by by_cases h : t.id = sid <;> simp [h])
            (fun t ht => by
              have h : ¬t.id = sid := by simpa using ht
              simp [h])
            rfl hdrw0.symm rfl (by rw [hsel])
      · replace hro : st.isRotating = false := by simpa using hro
        by_cases hre : st.isResizing = true
        · rcases hsel : st.selectedShapeId with _ | sid
          · simp [draw, hpan, hd, hro, hre, hsel, hdrw0]
            exact hmk2 _ rfl hdrw0.symm rfl (by rw [hsel]) hd.symm hre.symm hro.symm
          · rcases hhand : st.activeResizeHandle with _ | handle
            · simp [draw, hpan, hd, hro, hre, hsel, hhand, hdrw0]
              exact hmk2 _ rfl hdrw0.symm rfl (by rw [hsel]) hd.symm hre.symm hro.symm
            · simp [draw, hpan, hd, hro, hre, hsel, hhand, hdrw0]
              exact hmap sid _ _ hsel (Or.inr (Or.inl hre))
                (fun t => by
                  by_cases h : (t.id == sid) = true
                  · simp only [resizeShape, h, if_true]
                    match t.points with
                    | [] => rfl
                    | [p] => rfl
                    | p1 :: p2 :: rest => rfl
                  · simp [resizeShape, h])
                (fun t => by
                  by_cases h : (t.id == sid) = true
                  · simp only [resizeShape, h, if_true]
                    match t.points with
                    | [] => rfl
                    | [p] => rfl
                    | p1 :: p2 :: rest => rfl
                  · simp [resizeShape, h])
                (fun t ht => by simp [resizeShape, ht])
                rfl hdrw0.symm rfl (by rw [hsel])
        · replace hre : st.isResizing = false := by simpa using hre
          have hm : st.tool = Tool.move := hinv.tool_eq
          simp [draw, hpan, hd, hro, hre, hm, hdrw0]
          exact hmk1 _ rfl rfl rfl rfl rfl rfl

theorem foldl_draw_gestureInv (s : Shape) (moves : List (Point × Rot)) (st : EngineState)
    (hlock : s.isLocked = true) (hinv : GestureInv s st) :
    GestureInv s (moves.foldl (fun x m => draw x m.1 m.2) st) := by
  induction moves generalizing st with
  | nil => exact hinv
  | cons m ms ih => exact ih _ (draw_gestureInv s st m.1 m.2 hlock hinv)

theorem stopDrawing_keeps_shapes (st : EngineState) (uid : Nat)
    (hdrw : st.isDrawing = false) :
    (stopDrawing st uid).shapes = st.shapes := by
  by_cases hpan : st.isPanning = true
  · simp [stopDrawing, hpan]
  · by_cases hflags : (st.isDragging || st.isResizing || st.isRotating) = true
    · simp [stopDrawing, hpan, hflags, saveHistory]
    · simp [stopDrawing, hpan, hflags, hdrw]

theorem nudgeSelected_locked_mem (st : EngineState) (s : Shape) (dx dy : ℚ)
    (hnodup : (st.shapes.map Shape.id).Nodup) (hmem : s ∈ st.shapes)
    (hlock : s.isLocked = true) :
    s ∈ (nudgeSelected st dx dy).shapes := by
  unfold nudgeSelected
  rcases hsel : st.selectedShapeId with _ | sid
  · exact hmem
  · by_cases hg : ((st.shapes.find? (fun t => t.id == sid)).map Shape.isLocked).getD false
        = true
    · simp only [hg, if_true]
      exact hmem
    · replace hg : ((st.shapes.find? (fun t => t.id == sid)).map Shape.isLocked).getD false
          = false := by simpa using hg
      have hne : (s.id == sid) = false := locked_ne_sid hnodup hmem hlock hg
      simp only [hg, Bool.false_eq_true, if_false]
      exact mem_map_of_fix hmem _ (by simp [hne])

/-- C5: starting from an idle state (no gesture in progress) of the selection
tool with unique shape ids, every locked shape survives — with its `points`,
`rotation` and all other fields untouched — any full pointer gesture
(attempted drag on its body, attempted resize-handle or rotation-handle grab,
with arbitrarily many pointer moves), any arrow-key nudge, and any
Delete/Backspace press. -/
theorem locked_shape_immune (st : EngineState) (s : Shape) (op : UserOp)
    (htool : st.tool = Tool.move)
    (hdrw : st.isDrawing = false) (hdrag : st.isDragging = false)
    (hres : st.isResizing = false) (hrot : st.isRotating = false)
    (hnodup : (st.shapes.map Shape.id).Nodup)
    (hmem : s ∈ st.shapes) (hlock : s.isLocked = true) :
    s ∈ (applyOp st op).shapes := by
  cases op with
  | gesture c b fid moves uid =>
    have h0 := startDrawing_gestureInv s st c b fid hlock htool hdrw hdrag hres hrot
      hnodup hmem
    have h1 := foldl_draw_gestureInv s moves _ hlock h0
    show s ∈ (stopDrawing _ uid).shapes
    rw [stopDrawing_keeps_shapes _ uid h1.not_drawing]
    exact h1.mem
  | arrow dir sh =>
    show s ∈ (handleArrowKey st dir sh).shapes
    unfold handleArrowKey
    by_cases hvis : st.textInput.visible = true
    · simp only [hvis, if_true]
      exact hmem
    · simp only [hvis, Bool.false_eq_true, if_false]
      rcases hsel : st.selectedShapeId with _ | sid
      · simp only
        exact hmem
      · simp only
        cases dir <;> exact nudgeSelected_locked_mem st s _ _ hnodup hmem hlock
  | del =>
    show s ∈ (deleteKey st).shapes
    unfold deleteKey
    by_cases hvis : st.textInput.visible = true
    · simp only [hvis, if_true]
      exact hmem
    · simp only [hvis, Bool.false_eq_true, if_false]
      rcases hsel : st.selectedShapeId with _ | sid
      · exact hmem
      · by_cases hg : ((st.shapes.find? (fun t => t.id == sid)).map Shape.isLocked).getD false
            = true
        · simp only [hg, if_true]
          exact hmem
        · replace hg : ((st.shapes.find? (fun t => t.id == sid)).map Shape.isLocked).getD
              false = false := by simpa using hg
          have hne : (s.id == sid) = false := locked_ne_sid hnodup hmem hlock hg
          simp only [hg, Bool.false_eq_true, if_false, saveHistory]
          exact List.mem_filter.mpr ⟨hmem, by simp [hne]⟩

/-- The locked rectangle of the concrete C5 state. -/
def c5Shape : Shape :=
  { id := 1, tool := Tool.rect, points := [⟨0, 0⟩, ⟨100, 50⟩]
  , color := "#6366f1", size := 5, isFilled := false, isLocked := true
  , rotation := some ⟨1, 0⟩ }

/-- Concrete C5 state: the locked rectangle is selected under the selection
tool, no gesture in progress. -/
def c5State : EngineState :=
  { baseState with
    tool := Tool.move
    shapes := [c5Shape]
    selectedShapeId := some 1 }

/-- Witness for C5: a Delete press on the locked selected rectangle leaves it
in the scene. -/
theorem locked_shape_immune_witness :
    c5State.tool = Tool.move ∧ (c5State.shapes.map Shape.id).Nodup
    ∧ c5Shape ∈ c5State.shapes ∧ c5Shape.isLocked = true
    ∧ c5Shape ∈ (applyOp c5State UserOp.del).shapes :=
  ⟨rfl, by simp [c5State, baseState], by simp [c5State, baseState], rfl,
    locked_shape_immune c5State c5Shape UserOp.del rfl rfl rfl rfl rfl
      (by simp [c5State, baseState]) (by simp [c5State, baseState]) rfl⟩
